import Mathlib

/-!
# stargo: Starlark bindings for Go values

A shallow embedding of `stargo.go` and `builtins.go` (package `stargo`): the
conversion engine `convert`, the facade wrapper `wrap`, the copy policy
`copyVal`, the attribute resolvers of `goStruct` and `goPtr`, the calls of
`goFunc` and `Type`, the map facade `goMap`, and the builtin `close`.

The Go `reflect` package is the host type system the bridge is written
against.  Its values and types are modelled here as data:

* a `reflect.Type` is a reference (`TypeRef`) into the type table of a `Host`;
  two types are equal iff their references are equal;
* a `reflect.Value` is an `RVal`: its type, its content (`Data`), the place it
  lives at when it is addressable, and the two read-only flags;
* variables, maps and channels live in a `Heap`; pointers are places in the
  heap, and map and chan values refer to the maps and channels of the heap;
* the execution of a Go function is an operation of the `Host`.

Results of bridge operations are `Outcome`s: a normal result, a returned
`error`, or a fault (a Go panic).
-/

namespace Stargo

/-! ## Host type system -/

/-- The valid values of `reflect.Kind`. -/
inductive Kind
  | Bool
  | Int | Int8 | Int16 | Int32 | Int64
  | Uint | Uint8 | Uint16 | Uint32 | Uint64 | Uintptr
  | Float32 | Float64
  | Complex64 | Complex128
  | Array | Chan | Func | Interface | Map | Ptr | Slice | String | Struct
  | UnsafePointer
  deriving DecidableEq, Repr

/-- A `reflect.Type`: a reference to a runtime type descriptor. -/
abbrev TypeRef := Nat

/-- A `reflect.StructField` as far as the bridge reads it. -/
structure StructField where
  Name : String
  /-- Whether the field name is exported (`PkgPath == ""`). -/
  Exported : Bool
  Typ : TypeRef
  /-- Whether the field is an embedded (anonymous) field. -/
  Anonymous : Bool := false
  deriving DecidableEq, Repr

/-- The result of `ChanDir()` of a channel type. -/
inductive ChanDir
  | RecvDir | SendDir | BothDir
  deriving DecidableEq, Repr

/-- A runtime type descriptor: what the methods of `reflect.Type` report. -/
structure TypeInfo where
  kind : Kind
  /-- The result of `String()`. -/
  str : String := ""
  /-- The result of `PkgPath()`: empty for unnamed and predeclared types. -/
  pkgPath : String := ""
  /-- The methods that `NumMethod`, `Method` and `MethodByName` report,
  sorted by name, each with the type of its method value: the exported
  methods of the method set, and all the methods of an interface type. -/
  methods : List (String × TypeRef) := []
  /-- The result of `Elem()` for array, chan, map, pointer and slice types. -/
  elem : TypeRef := 0
  /-- The result of `Key()` for map types. -/
  key : TypeRef := 0
  /-- The result of `Len()` for array types. -/
  len : Nat := 0
  /-- The declared fields of a struct type, in order. -/
  fields : List StructField := []
  /-- The parameter types of a func type. -/
  ins : List TypeRef := []
  /-- The result types of a func type. -/
  outs : List TypeRef := []
  /-- The result of `IsVariadic()` for func types. -/
  variadic : Bool := false
  /-- The result of `ChanDir()` for chan types. -/
  chanDir : ChanDir := .BothDir
  deriving Repr

/-- The size of `int`, `uint` and `uintptr` on the host. -/
inductive WordSize
  | w32 | w64
  deriving DecidableEq, Repr

/-- The number of bits of a word. -/
def WordSize.bits : WordSize → Nat
  | .w32 => 32
  | .w64 => 64

/-- An IEEE 754 binary64 value, given by its bit pattern. -/
structure F64 where
  bits : Nat
  deriving DecidableEq, Repr

/-- The biased exponent field. -/
def F64.expo (f : F64) : Nat := (f.bits / 2 ^ 52) % 2 ^ 11

/-- The fraction field. -/
def F64.mant (f : F64) : Nat := f.bits % 2 ^ 52

/-- The sign bit. -/
def F64.neg (f : F64) : Bool := decide ((f.bits / 2 ^ 63) % 2 = 1)

/-- Whether the value is neither an infinity nor a NaN. -/
def F64.isFinite (f : F64) : Bool := decide (f.expo ≠ 2047)

/-- The integer significand: the value is `sig * 2 ^ (scale - 1075)`. -/
def F64.sig (f : F64) : Nat := if f.expo = 0 then f.mant else 2 ^ 52 + f.mant

/-- The exponent of the significand, biased by 1075. -/
def F64.scale (f : F64) : Nat := if f.expo = 0 then 1 else f.expo

/-- The magnitude of a finite value, rounded toward zero. -/
def F64.truncAbs (f : F64) : Nat :=
  if 1075 ≤ f.scale then f.sig * 2 ^ (f.scale - 1075) else f.sig / 2 ^ (1075 - f.scale)

/-- Whether a finite value has a non-zero fractional part. -/
def F64.hasFraction (f : F64) : Bool :=
  f.isFinite && decide (f.scale < 1075) && decide (f.sig % 2 ^ (1075 - f.scale) ≠ 0)

/-- The value rounded toward zero; `none` for infinities and NaN. -/
def F64.trunc (f : F64) : Option Int :=
  if f.isFinite then some (if f.neg then -(f.truncAbs : Int) else (f.truncAbs : Int)) else none

/-- Whether the value is `+0` or `-0`. -/
def F64.isZero (f : F64) : Bool := decide (f.bits % 2 ^ 63 = 0)

/-- A place in memory: a variable and a path of field or element indices
into it. -/
structure Place where
  loc : Nat
  path : List Nat := []
  deriving DecidableEq, Repr

/-- A slice header: the place of the backing array, and the offset, length
and capacity of the slice in it. -/
structure SliceHdr where
  arr : Place
  off : Nat
  len : Nat
  cap : Nat
  deriving DecidableEq, Repr

/-- The content of a Go value.  Integers of every integer kind carry their
mathematical value; a `float32` carries its value widened to binary64, as
`Value.Float` reports it. -/
inductive Data
  | bool (b : Bool)
  | int (i : Int)
  | float (f : F64)
  | complex (re im : F64)
  | str (s : String)
  | ptr (p : Option Place)
  /-- A `*rtype`: a pointer to a runtime type descriptor, possibly nil. -/
  | rtypePtr (t : Option TypeRef)
  /-- An `unsafe.Pointer`: an address, zero when nil. -/
  | unsafePtr (a : Nat)
  | nilIface
  /-- A non-nil interface: its dynamic type and dynamic value. -/
  | iface (dynTyp : TypeRef) (dyn : Data)
  | struct (fs : List Data)
  | array (es : List Data)
  | slice (s : Option SliceHdr)
  | map (m : Option Nat)
  | chan (c : Option Nat)
  | nilFunc
  /-- A function or closure, by identity. -/
  | func (id : Nat)
  /-- A method value: the method `name` bound to a receiver. -/
  | methodVal (recvTyp : TypeRef) (recv : Data) (name : String)
  deriving Repr

/-- A `reflect.Value` that is valid (`IsValid()`).  The zero `Value` is
`none : Option RVal`. -/
structure RVal where
  typ : TypeRef
  data : Data
  /-- The place the value lives at when `flagAddr` is set. -/
  place : Option Place := none
  /-- The bit `flagStickyRO`: obtained via an unexported not embedded field. -/
  stickyRO : Bool := false
  /-- The bit `flagEmbedRO`: obtained via an unexported embedded field. -/
  embedRO : Bool := false
  deriving Repr

/-- The state of a channel: whether it is closed, and its buffer. -/
structure ChanState where
  closed : Bool := false
  buf : List Data := []

/-- The memory of the host program: its variables, and the maps and
channels that map and chan values refer to.  The entries of a map are pairs
of a key and an element. -/
structure Heap where
  cells : List Data := []
  maps : List (List (Data × Data)) := []
  chans : List ChanState := []

/-- The result of calling a Go function: its results, by type and content,
or a panic with the printed panic value; and the memory after the call. -/
inductive CallResult
  | returns (outs : List (TypeRef × Data)) (h : Heap)
  | panics (value : String) (h : Heap)

/-- The operations of the host that the bridge uses but does not define. -/
structure Host where
  /-- The type table. -/
  info : TypeRef → TypeInfo
  word : WordSize
  /-- The type `*reflect.rtype`, the source variable `rtype`. -/
  rtype : TypeRef
  /-- The type `interface{}`, the source variable `eface`. -/
  eface : TypeRef
  /-- The predeclared types `bool`, `int`, `float64`, `string`. -/
  tBool : TypeRef
  tInt : TypeRef
  tFloat64 : TypeRef
  tString : TypeRef
  /-- The named type `starlark.Float`, of kind `Float64`. -/
  tStarlarkFloat : TypeRef
  /-- The result of `int64(f)` when `f` truncated is outside `int64`
  (implementation-dependent in Go). -/
  floatToInt64 : F64 → Int
  /-- The result of `uint64(f)` when `f` truncated is outside `uint64`. -/
  floatToUint64 : F64 → Int
  /-- The conversion `float64(float32(f))`: rounding to single precision. -/
  toFloat32 : F64 → F64
  /-- The conversion `float64(i)` of an integer. -/
  intToFloat : Int → F64
  /-- The conversion `string(rune(i))`. -/
  runeString : Int → String
  /-- Whether `Convert` is defined between two types outside the numeric
  families and the conversions of a slice to an array or to a pointer to an
  array: identical underlying types, pointers to such, interface
  implementation, conversions between strings and slices. -/
  convertibleOther : TypeRef → TypeRef → Bool
  /-- The content produced by a conversion outside the numeric families that
  does not panic. -/
  convertOther : TypeRef → Data → TypeRef → Data
  /-- Whether a value of the first type is directly assignable to the
  second, for two different types. -/
  directlyAssignable : TypeRef → TypeRef → Bool
  /-- Whether the first type implements the second, an interface type. -/
  implements : TypeRef → TypeRef → Bool
  /-- The result of `reflect.PtrTo`: the pointer type to a type. -/
  ptrTo : TypeRef → TypeRef
  /-- An upper bound on the nesting depth of array and struct types, by
  value and through embedded pointers. -/
  depth : Nat
  /-- The execution of a Go function on its arguments: `Value.Call` after
  its checks. -/
  call : Heap → Data → List RVal → CallResult
  /-- The name of a function, as the source method `goFunc.Name` finds it. -/
  funcName : Data → String
  /-- The order in which `MapRange` visits the entries of a map, which Go
  leaves unspecified. -/
  mapOrder : List (Data × Data) → List (Data × Data)
  /-- The result of `reflect.Append(s, x...)` and the memory after it; `none`
  if it panics. -/
  append : Heap → RVal → List RVal → Option (RVal × Heap)
  mapOrder_perm : ∀ es, (mapOrder es).Perm es
  eface_kind : (info eface).kind = Kind.Interface
  eface_methods : (info eface).methods = []
  rtype_kind : (info rtype).kind = Kind.Ptr
  tBool_kind : (info tBool).kind = Kind.Bool
  tInt_kind : (info tInt).kind = Kind.Int
  tFloat64_kind : (info tFloat64).kind = Kind.Float64
  tString_kind : (info tString).kind = Kind.String
  tStarlarkFloat_kind : (info tStarlarkFloat).kind = Kind.Float64

/-- The result of `t.Kind()`. -/
def Host.kind (H : Host) (t : TypeRef) : Kind := (H.info t).kind

/-- The source function `named`: whether `t.PkgPath()` is not empty. -/
def named (H : Host) (t : TypeRef) : Bool := (H.info t).pkgPath != ""

/-! ## Outcomes -/

/-- The errors the bridge returns. -/
inductive Err
  /-- The message `cannot convert <script type> to Go <type>`. -/
  | cannotConvert (vtype : String) (dst : TypeRef)
  /-- The message of the integer range check, naming the integer. -/
  | intOutOfRange (i : Int)
  /-- The message `nil dereference`. -/
  | nilDereference
  /-- The message `access to unexported field .<name>`. -/
  | unexportedField (name : String)
  /-- The message of `goPtr.SetField` for a field that cannot be set. -/
  | cannotSetField (name : String) (ptype : String)
  /-- The message `struct has no .<name> field` of `goStruct.SetField`. -/
  | structHasNoField (name : String)
  /-- The message of `goStruct.SetField` for a field that cannot be set. -/
  | cannotSetStructField (name : String)
  /-- The message `Go function <f> does not accept named arguments`. -/
  | noNamedArguments (fn : String)
  /-- The message `call of nil function`. -/
  | callOfNilFunction
  /-- The message `in call to <f>, got <n> arguments, want <k>`. -/
  | arityMismatch (fn : String) (got want : Nat)
  /-- The message `in argument <i> of call to <f>, <error>`. -/
  | inArgument (i : Nat) (fn : String) (e : Err)
  /-- The message `panic in Go function <f>: <value>`. -/
  | panicInGoFunction (fn : String) (value : String)
  /-- The message `<type>: unexpected keyword arguments` of a `Type` call. -/
  | typeKeywordArguments (t : String)
  /-- The message `<type>: got <n> arguments, want zero or one`. -/
  | typeArity (t : String) (got : Nat)
  /-- The message `invalid map key: <error>`. -/
  | invalidMapKey (e : Err)
  /-- The message `invalid map element: <error>`. -/
  | invalidMapElement (e : Err)
  /-- The message `assignment to element of nil map`. -/
  | nilMapAssignment
  /-- An error of `starlark.UnpackPositionalArgs` for a builtin. -/
  | unpackArgs (fn : String)
  /-- The message `close: close of nil channel`. -/
  | closeOfNilChannel
  /-- The message `close: already closed`. -/
  | closeAlreadyClosed
  /-- The message `unsafe.Pointer comparison not implemented`. -/
  | unsafePointerComparison
  /-- The message `invalid comparison: <type> <op> <type>`. -/
  | invalidComparison (x op y : String)
  /-- The message of `goArray.SetIndex` for an element that cannot be set. -/
  | cannotSetArrayElement
  /-- The message of `goSlice.SetIndex` for an element that cannot be set. -/
  | cannotSetSliceElement
  /-- The message `<builtin>: unexpected keyword arguments`. -/
  | builtinKeywordArguments (fn : String)
  /-- The message `<builtin>: got 0 arguments, want at least 1`. -/
  | builtinNoArguments (fn : String)
  /-- The message `<builtin>: want slice, got <type> for argument 1`. -/
  | builtinWantSlice (fn : String) (got : String)
  /-- The message `<builtin>: in argument <i>, <error>`. -/
  | builtinInArgument (fn : String) (i : Nat) (e : Err)
  deriving DecidableEq, Repr

/-- The outcome of a bridge operation: a result, a returned error, or a
fault (a Go panic) with its message. -/
inductive Outcome (α : Type)
  | ok (a : α)
  | error (e : Err)
  | fault (msg : String)

/-! ## Script values -/

/-- The field `t` of the facade `Type`: a `reflect.Type` interface value,
which is nil or holds a `*rtype` pointer. -/
inductive TypeIface
  | nil
  | ptr (p : Option TypeRef)
  deriving DecidableEq, Repr

/-- A `starlark.Value`: the primitives of the scripting engine, its other
values, and the facades of this package. -/
inductive SValue
  /-- The value `starlark.None`. -/
  | NoneV
  /-- A `starlark.Bool`. -/
  | BoolV (b : Bool)
  /-- A `starlark.Int`, of arbitrary precision. -/
  | IntV (i : Int)
  /-- A `starlark.Float`. -/
  | FloatV (f : F64)
  /-- A `starlark.String`. -/
  | StringV (s : String)
  /-- A `starlark.Tuple`. -/
  | TupleV (xs : List SValue)
  /-- A `*starlark.List`. -/
  | ListV (xs : List SValue)
  /-- Any other value of the engine (dict, set, function, ...), by the
  results of its `Type()` and `Truth()`. -/
  | OtherV (typeName : String) (truth : Bool)
  | goFunc (v : RVal)
  | goComplex (v : RVal)
  | goPtr (v : RVal)
  | goNamedBasic (v : RVal)
  | goUnsafePointer (v : RVal)
  | goStruct (v : RVal)
  | goArray (v : RVal)
  | goSlice (v : RVal)
  | goMap (v : RVal)
  | goChan (v : RVal)
  /-- The facade `Type`. -/
  | TypeV (t : TypeIface)

/-- The result of `reflect.ValueOf(x)` for a Go value `x` that is not an
interface: a detached value. -/
def ValueOf (t : TypeRef) (d : Data) : RVal := { typ := t, data := d }

/-- Whether a script value implements the source interface `Value`, that is,
has a `Reflect` method: the facades. -/
def isValue : SValue → Bool
  | .goFunc _ | .goComplex _ | .goPtr _ | .goNamedBasic _ | .goUnsafePointer _
  | .goStruct _ | .goArray _ | .goSlice _ | .goMap _ | .goChan _ | .TypeV _ => true
  | _ => false

/-- The method `Reflect` of the facades; `none` is the zero `reflect.Value`
(`Type.Reflect` on a nil `reflect.Type`). -/
def Reflect (H : Host) : SValue → Option RVal
  | .goFunc v | .goComplex v | .goPtr v | .goNamedBasic v | .goUnsafePointer v
  | .goStruct v | .goArray v | .goSlice v | .goMap v | .goChan v => some v
  | .TypeV (.ptr p) => some (ValueOf H.rtype (.rtypePtr p))
  | _ => none

/-- The result of `Value.IsNil` on the content of a nilable kind. -/
def Data.IsNil : Data → Bool
  | .ptr none | .rtypePtr none | .nilIface | .slice none | .map none | .chan none
  | .nilFunc => true
  | .unsafePtr a => a == 0
  | _ => false

/-- The result of `Value.Bool`. -/
def Data.getBool : Data → Bool
  | .bool b => b
  | _ => false

/-- The result of `Value.Int` or `Value.Uint`. -/
def Data.getInt : Data → Int
  | .int i => i
  | _ => 0

/-- The result of `Value.Float`. -/
def Data.getFloat : Data → F64
  | .float f => f
  | _ => ⟨0⟩

/-- The result of `Value.String` on a string. -/
def Data.getString : Data → String
  | .str s => s
  | _ => ""

/-- The result of `Kind.String`. -/
def kindString : Kind → String
  | .Bool => "bool"
  | .Int => "int" | .Int8 => "int8" | .Int16 => "int16" | .Int32 => "int32" | .Int64 => "int64"
  | .Uint => "uint" | .Uint8 => "uint8" | .Uint16 => "uint16" | .Uint32 => "uint32"
  | .Uint64 => "uint64" | .Uintptr => "uintptr"
  | .Float32 => "float32" | .Float64 => "float64"
  | .Complex64 => "complex64" | .Complex128 => "complex128"
  | .Array => "array" | .Chan => "chan" | .Func => "func" | .Interface => "interface"
  | .Map => "map" | .Ptr => "ptr" | .Slice => "slice" | .String => "string"
  | .Struct => "struct" | .UnsafePointer => "unsafe.Pointer"

/-- The method `Type` of a script value: the name of its script type. -/
def TypeName (H : Host) : SValue → String
  | .NoneV => "NoneType"
  | .BoolV _ => "bool"
  | .IntV _ => "int"
  | .FloatV _ => "float"
  | .StringV _ => "string"
  | .TupleV _ => "tuple"
  | .ListV _ => "list"
  | .OtherV n _ => n
  | .goFunc v => "go.func<" ++ (H.info v.typ).str ++ ">"
  | .goComplex v => "go.complex<" ++ (H.info v.typ).str ++ ">"
  | .goPtr v => "go.ptr<" ++ (H.info v.typ).str ++ ">"
  | .goNamedBasic v =>
      "go." ++ (kindString (H.kind v.typ)).toLower ++ "<" ++ (H.info v.typ).str ++ ">"
  | .goUnsafePointer v => "go.unsafepointer<" ++ (H.info v.typ).str ++ ">"
  | .goStruct v =>
      "go.struct<" ++ (H.info v.typ).str ++ ">" ++ (if v.place.isSome then " var" else "")
  | .goArray v =>
      "go.array<" ++ (H.info v.typ).str ++ ">" ++ (if v.place.isSome then " var" else "")
  | .goSlice v => "go.slice<" ++ (H.info v.typ).str ++ ">"
  | .goMap v => "go.map<" ++ (H.info v.typ).str ++ ">"
  | .goChan v => "go.chan<" ++ (H.info v.typ).str ++ ">"
  | .TypeV .nil => "go.type<%!s(<nil>)>"
  | .TypeV (.ptr none) => "go.type<<nil>>"
  | .TypeV (.ptr (some t)) => "go.type<" ++ (H.info t).str ++ ">"

/-- The method `Truth` of a script value. -/
def Truth (H : Host) : SValue → Bool
  | .NoneV => false
  | .BoolV b => b
  | .IntV i => i != 0
  | .FloatV f => !f.isZero
  | .StringV s => s.length > 0
  | .TupleV xs => xs.length > 0
  | .ListV xs => xs.length > 0
  | .OtherV _ t => t
  | .goFunc v => !v.data.IsNil
  | .goComplex v =>
      match v.data with
      | .complex re im => !(re.isZero && im.isZero)
      | _ => false
  | .goPtr v => !v.data.IsNil
  | .goNamedBasic _ => true
  | .goUnsafePointer v => !v.data.IsNil
  | .goStruct _ => true
  | .goArray v => (H.info v.typ).len > 0
  | .goSlice v => !v.data.IsNil
  | .goMap v => !v.data.IsNil
  | .goChan v => !v.data.IsNil
  | .TypeV t => t != .nil

/-! ## Conversions of the host: `reflect.Zero`, `ConvertibleTo`, `Convert` -/

/-- The signed integer kinds. -/
def isSignedKind : Kind → Bool
  | .Int | .Int8 | .Int16 | .Int32 | .Int64 => true
  | _ => false

/-- The unsigned integer kinds, `Uintptr` included. -/
def isUnsignedKind : Kind → Bool
  | .Uint | .Uint8 | .Uint16 | .Uint32 | .Uint64 | .Uintptr => true
  | _ => false

/-- The integer kinds. -/
def isIntegerKind (k : Kind) : Bool := isSignedKind k || isUnsignedKind k

/-- The floating-point kinds. -/
def isFloatKind : Kind → Bool
  | .Float32 | .Float64 => true
  | _ => false

/-- The complex kinds. -/
def isComplexKind : Kind → Bool
  | .Complex64 | .Complex128 => true
  | _ => false

/-- The kinds whose zero value is nil: the case list of `convert` for
`starlark.None`. -/
def isNilableKind : Kind → Bool
  | .Chan | .Func | .Interface | .Map | .Ptr | .Slice | .UnsafePointer => true
  | _ => false

/-- The size in bits of an integer kind. -/
def intBits (H : Host) : Kind → Nat
  | .Int8 | .Uint8 => 8
  | .Int16 | .Uint16 => 16
  | .Int32 | .Uint32 => 32
  | .Int64 | .Uint64 => 64
  | .Int | .Uint | .Uintptr => H.word.bits
  | _ => 0

/-- The least value of an integer kind. -/
def minInt (H : Host) (k : Kind) : Int :=
  if isSignedKind k then -((2 ^ (intBits H k - 1) : Nat) : Int) else 0

/-- The greatest value of an integer kind. -/
def maxInt (H : Host) (k : Kind) : Int :=
  if isSignedKind k then ((2 ^ (intBits H k - 1) : Nat) : Int) - 1
  else ((2 ^ intBits H k : Nat) : Int) - 1

/-- Whether an integer is representable in an integer kind. -/
def representable (H : Host) (k : Kind) (i : Int) : Prop := minInt H k ≤ i ∧ i ≤ maxInt H k

instance (H : Host) (k : Kind) (i : Int) : Decidable (representable H k i) := by
  unfold representable; infer_instance

/-- The host function `makeInt`: the low bits of an integer, of the size of
the kind, read in the signedness of the kind. -/
def makeInt (H : Host) (k : Kind) (i : Int) : Int :=
  let m : Int := ((2 ^ intBits H k : Nat) : Int)
  if isSignedKind k then (i + m / 2) % m - m / 2 else i % m

/-- The host function `makeFloat`: rounds to single precision for `Float32`
and `Complex64` parts. -/
def makeFloat (H : Host) (k : Kind) (f : F64) : F64 :=
  match k with
  | .Float32 | .Complex64 => H.toFloat32 f
  | _ => f

/-- The Go conversion `int64(f)` of a float. -/
def floatInt64 (H : Host) (f : F64) : Int :=
  match f.trunc with
  | some i => if -((2 ^ 63 : Nat) : Int) ≤ i ∧ i < ((2 ^ 63 : Nat) : Int) then i
              else H.floatToInt64 f
  | none => H.floatToInt64 f

/-- The Go conversion `uint64(f)` of a float. -/
def floatUint64 (H : Host) (f : F64) : Int :=
  match f.trunc with
  | some i => if 0 ≤ i ∧ i < ((2 ^ 64 : Nat) : Int) then i else H.floatToUint64 f
  | none => H.floatToUint64 f

/-- The case `cvtSliceArrayPtr` of the host function `convertOp`: the source
is a slice type and the target a pointer to an array type with the same
element type. -/
def sliceToArrayPtr (H : Host) (src dst : TypeRef) : Bool :=
  H.kind src == .Slice && H.kind dst == .Ptr && H.kind (H.info dst).elem == .Array &&
    decide ((H.info src).elem = (H.info (H.info dst).elem).elem)

/-- The case `cvtSliceArray` of the host function `convertOp`: the source is
a slice type and the target an array type with the same element type. -/
def sliceToArray (H : Host) (src dst : TypeRef) : Bool :=
  H.kind src == .Slice && H.kind dst == .Array &&
    decide ((H.info src).elem = (H.info dst).elem)

/-- The result of `src.ConvertibleTo(dst)`: the table of the host function
`convertOp`.  Numeric kinds convert among themselves, integers to strings,
bool to bool and string to string directly (identical underlying types), a
slice to an array and to a pointer to an array of its element type; every
other pair is decided by the host. -/
def ConvertibleTo (H : Host) (src dst : TypeRef) : Bool :=
  let sk := H.kind src
  let dk := H.kind dst
  if isIntegerKind sk && (isIntegerKind dk || isFloatKind dk || dk == .String) then true
  else if isFloatKind sk && (isIntegerKind dk || isFloatKind dk) then true
  else if isComplexKind sk && isComplexKind dk then true
  else if sliceToArrayPtr H src dst || sliceToArray H src dst then true
  else if (sk == .Bool && dk == .Bool) || (sk == .String && dk == .String) then true
  else H.convertibleOther src dst

/-- The content of `v.Convert(dst)`, by the kinds of the two types. -/
def convertData (H : Host) (src : TypeRef) (d : Data) (dst : TypeRef) : Data :=
  let sk := H.kind src
  let dk := H.kind dst
  if isIntegerKind sk && isIntegerKind dk then .int (makeInt H dk d.getInt)
  else if isIntegerKind sk && isFloatKind dk then .float (makeFloat H dk (H.intToFloat d.getInt))
  else if isIntegerKind sk && dk == .String then .str (H.runeString d.getInt)
  else if isFloatKind sk && isSignedKind dk then .int (makeInt H dk (floatInt64 H d.getFloat))
  else if isFloatKind sk && isUnsignedKind dk then .int (makeInt H dk (floatUint64 H d.getFloat))
  else if isFloatKind sk && isFloatKind dk then .float (makeFloat H dk d.getFloat)
  else if isComplexKind sk && isComplexKind dk then
    match d with
    | .complex re im => .complex (makeFloat H dk re) (makeFloat H dk im)
    | _ => d
  else if (sk == .Bool && dk == .Bool) || (sk == .String && dk == .String) then d
  else H.convertOther src d dst

/-- The value that `v.Convert(dst)` returns when it does not panic: a
detached value of type `dst`, read-only if `v` is. -/
def converted (H : Host) (v : RVal) (dst : TypeRef) : RVal :=
  { typ := dst, data := convertData H v.typ v.data dst,
    stickyRO := v.stickyRO || v.embedRO }

/-- The length of a slice, zero for a nil slice. -/
def Data.sliceLen : Data → Nat
  | .slice (some s) => s.len
  | _ => 0

/-- The result of `v.Convert(dst)` when `ConvertibleTo` holds.  The
conversion of a slice to a pointer to an array, or to an array, panics if
the slice is shorter than the array (`cvtSliceArrayPtr`, `cvtSliceArray`);
every other conversion returns a value. -/
def Convert (H : Host) (v : RVal) (dst : TypeRef) : Outcome RVal :=
  if sliceToArrayPtr H v.typ dst &&
      decide (v.data.sliceLen < (H.info (H.info dst).elem).len) then
    .fault ("reflect: cannot convert slice with length " ++ toString v.data.sliceLen ++
      " to pointer to array with length " ++ toString (H.info (H.info dst).elem).len)
  else if sliceToArray H v.typ dst && decide (v.data.sliceLen < (H.info dst).len) then
    .fault ("reflect: cannot convert slice with length " ++ toString v.data.sliceLen ++
      " to array with length " ++ toString (H.info dst).len)
  else .ok (converted H v dst)

/-- The content of the zero value of a type. -/
def zeroData (H : Host) : Nat → TypeRef → Data
  | fuel, t =>
    match H.kind t with
    | .Bool => .bool false
    | .Int | .Int8 | .Int16 | .Int32 | .Int64 => .int 0
    | .Uint | .Uint8 | .Uint16 | .Uint32 | .Uint64 | .Uintptr => .int 0
    | .Float32 | .Float64 => .float ⟨0⟩
    | .Complex64 | .Complex128 => .complex ⟨0⟩ ⟨0⟩
    | .String => .str ""
    | .Chan => .chan none
    | .Func => .nilFunc
    | .Interface => .nilIface
    | .Map => .map none
    | .Ptr => if t = H.rtype then .rtypePtr none else .ptr none
    | .Slice => .slice none
    | .UnsafePointer => .unsafePtr 0
    | .Array =>
      match fuel with
      | 0 => .array []
      | n + 1 => .array (List.replicate (H.info t).len (zeroData H n (H.info t).elem))
    | .Struct =>
      match fuel with
      | 0 => .struct []
      | n + 1 => .struct ((H.info t).fields.map (fun f => zeroData H n f.Typ))

/-- The result of `reflect.Zero(t)`. -/
def Zero (H : Host) (t : TypeRef) : RVal := { typ := t, data := zeroData H H.depth t }

/-! ## The conversion engine -/

/-- The method `Int64` of `starlark.Int`: the value, if it fits in 64 bits. -/
def Int64 (i : Int) : Option Int :=
  if -((2 ^ 63 : Nat) : Int) ≤ i ∧ i < ((2 ^ 63 : Nat) : Int) then some i else none

/-- The final statement of `convert`: the error of the cannot-convert
family. -/
def cannotConvert (H : Host) (v : SValue) (dst : TypeRef) : Outcome RVal :=
  .error (.cannotConvert (TypeName H v) dst)

/-- The source function `convert`, for a script value that is not a facade:
the statements after the `Value` type switch. -/
def convertPrimitive (H : Host) (v : SValue) (dst : TypeRef) : Outcome RVal :=
  match v, isNilableKind (H.kind dst) with
  | .NoneV, true => .ok (Zero H dst)
  | _, _ =>
    match H.kind dst with
    | .Bool => Convert H (ValueOf H.tBool (.bool (Truth H v))) dst
    | .Int | .Int8 | .Int16 | .Int32 | .Int64
    | .Uint | .Uint8 | .Uint16 | .Uint32 | .Uint64 | .Uintptr =>
      match v with
      | .FloatV f => Convert H (ValueOf H.tFloat64 (.float f)) dst
      | .IntV n =>
        match Int64 n with
        | none => .error (.intOutOfRange n)
        | some i =>
          if makeInt H .Int64 (makeInt H .Int i) ≠ i then .error (.intOutOfRange n)
          else Convert H (ValueOf H.tInt (.int (makeInt H .Int i))) dst
      | _ => cannotConvert H v dst
    | .Float32 | .Float64 =>
      match v with
      | .FloatV f => Convert H (ValueOf H.tStarlarkFloat (.float f)) dst
      | _ => cannotConvert H v dst
    | .String =>
      match v with
      | .StringV s => Convert H (ValueOf H.tString (.str s)) dst
      | _ => cannotConvert H v dst
    | .Interface =>
      if dst = H.eface then
        match v with
        | .StringV s => .ok (ValueOf H.tString (.str s))
        | .BoolV b => .ok (ValueOf H.tBool (.bool b))
        | .FloatV f => .ok (ValueOf H.tFloat64 (.float f))
        | .IntV n =>
          match Int64 n with
          | none => .error (.intOutOfRange n)
          | some i =>
            if makeInt H .Int64 (makeInt H .Int i) ≠ i then .error (.intOutOfRange n)
            else .ok (ValueOf H.tInt (.int (makeInt H .Int i)))
        | _ => cannotConvert H v dst
      else cannotConvert H v dst
    | _ => cannotConvert H v dst

/-- The source function `convert`: converts a script value to a Go value of
the type `dst`. -/
def convert (H : Host) (v : SValue) (dst : TypeRef) : Outcome RVal :=
  if isValue v then
    -- a wrapper around a Go value: unwrap it
    match Reflect H v with
    | none => .fault "reflect: call of reflect.Value.Type on zero Value"
    | some rv =>
      if rv.typ = dst then .ok rv
      else if ConvertibleTo H rv.typ dst then Convert H rv dst
      else cannotConvert H v dst
  else
    match v, decide (dst = H.rtype) with
    | .TypeV (.ptr p), true => .ok (ValueOf H.rtype (.rtypePtr p))
    | _, _ => convertPrimitive H v dst

/-! ## Outcomes: sequencing -/

/-- Sequencing of outcomes: an error or a fault ends the computation. -/
def Outcome.bind {α β : Type} (o : Outcome α) (f : α → Outcome β) : Outcome β :=
  match o with
  | .ok a => f a
  | .error e => .error e
  | .fault m => .fault m

/-- The image of a result. -/
def Outcome.map {α β : Type} (f : α → β) (o : Outcome α) : Outcome β :=
  o.bind (fun a => .ok (f a))

/-! ## Flags of a `reflect.Value` -/

/-- The result of `v.CanAddr()`. -/
def RVal.CanAddr (v : RVal) : Bool := v.place.isSome

/-- Whether one of the read-only bits is set (`flagRO`). -/
def RVal.isRO (v : RVal) : Bool := v.stickyRO || v.embedRO

/-- The result of `v.CanInterface()`. -/
def RVal.CanInterface (v : RVal) : Bool := !v.isRO

/-- The result of `v.CanSet()`. -/
def RVal.CanSet (v : RVal) : Bool := v.CanAddr && !v.isRO

/-! ## The facade wrapper -/

/-- The kind switch of the source function `wrap` on a value `v` that is not
addressable, except for the case of a non-nil interface. -/
def wrapSwitch (H : Host) (v : RVal) : Outcome SValue :=
  match H.kind v.typ with
  | .Bool => if named H v.typ then .ok (.goNamedBasic v) else .ok (.BoolV v.data.getBool)
  | .Int | .Int8 | .Int16 | .Int32 | .Int64 =>
    if named H v.typ then .ok (.goNamedBasic v) else .ok (.IntV v.data.getInt)
  | .Uint | .Uint8 | .Uint16 | .Uint32 | .Uint64 | .Uintptr =>
    if named H v.typ then .ok (.goNamedBasic v) else .ok (.IntV v.data.getInt)
  | .Float32 | .Float64 =>
    if named H v.typ then .ok (.goNamedBasic v) else .ok (.FloatV v.data.getFloat)
  | .String => if named H v.typ then .ok (.goNamedBasic v) else .ok (.StringV v.data.getString)
  | .Complex64 | .Complex128 => .ok (.goComplex v)
  | .Array => .ok (.goArray v)
  | .Chan => .ok (.goChan v)
  | .Func => .ok (.goFunc v)
  | .Interface => .ok .NoneV
  | .Map => .ok (.goMap v)
  | .Ptr =>
    if v.typ = H.rtype then
      -- v.Interface().(reflect.Type)
      if v.stickyRO || v.embedRO then
        .fault "reflect.Value.Interface: cannot return value obtained from unexported field or method"
      else
        match v.data with
        | .rtypePtr p => .ok (.TypeV (.ptr p))
        | _ => .ok (.TypeV (.ptr none))
    else .ok (.goPtr v)
  | .Slice => .ok (.goSlice v)
  | .Struct => .ok (.goStruct v)
  | .UnsafePointer => .ok (.goUnsafePointer v)

/-- The source function `wrap` after its check of `CanAddr`, on the
read-only bits, type and content of a value that is not addressable.  For
a non-nil value of kind `Interface` the source calls `wrap` on `v.Elem()`,
which is never addressable and carries `flagStickyRO` if `v` is read-only;
every other case is in `wrapSwitch`. -/
def wrapKind (H : Host) : Bool → Bool → TypeRef → Data → Outcome SValue
  | sticky, embed, typ, .iface t e =>
    if H.kind typ = .Interface then wrapKind H (sticky || embed) false t e
    else wrapSwitch H { typ := typ, data := .iface t e, stickyRO := sticky, embedRO := embed }
  | sticky, embed, typ, d =>
    wrapSwitch H { typ := typ, data := d, stickyRO := sticky, embedRO := embed }

/-- The source function `wrap`.  The argument `none` is the zero
`reflect.Value`, whose kind is `Invalid`. -/
def wrap (H : Host) : Option RVal → Outcome SValue
  | none => .fault "unknown kind: invalid"
  | some v =>
    if v.CanAddr then .fault "addr"
    else wrapKind H v.stickyRO v.embedRO v.typ v.data

/-- The source function `copyVal`: a detached copy of a valid value.  The
result `none` is the zero `reflect.Value`, which `reflect.ValueOf` returns
for the content of a nil interface. -/
def copyVal (H : Host) (v : RVal) : Outcome (Option RVal) :=
  if !v.CanAddr then .ok (some v)
  else if v.CanInterface then
    -- reflect.ValueOf(v.Interface())
    match H.kind v.typ with
    | .Interface =>
      match v.data with
      | .iface t e => .ok (some (ValueOf t e))
      | _ => .ok none
    | _ => .ok (some (ValueOf v.typ v.data))
  else
    -- ptr.Elem().Set(v)
    .fault "reflect: reflect.Value.Set using value obtained using unexported field"

/-! ## Memory -/

/-- The field or element of an aggregate at an index. -/
def Data.child : Data → Nat → Option Data
  | .struct fs, i => fs[i]?
  | .array es, i => es[i]?
  | _, _ => none

/-- The content at a path of indices. -/
def Data.get : Data → List Nat → Option Data
  | d, [] => some d
  | d, i :: is =>
    match d.child i with
    | some c => c.get is
    | none => none

/-- The content with the part at a path replaced. -/
def Data.put : Data → List Nat → Data → Option Data
  | _, [], x => some x
  | d, i :: is, x =>
    match d.child i with
    | none => none
    | some c =>
      match c.put is x, d with
      | some c2, .struct fs => some (.struct (fs.set i c2))
      | some c2, .array es => some (.array (es.set i c2))
      | _, _ => none

/-- The content of a place. -/
def Heap.read (h : Heap) (p : Place) : Option Data :=
  match h.cells[p.loc]? with
  | some d => d.get p.path
  | none => none

/-- The heap after a store to a place. -/
def Heap.write (h : Heap) (p : Place) (x : Data) : Option Heap :=
  match h.cells[p.loc]? with
  | some d =>
    match d.put p.path x with
    | some d2 => some { h with cells := h.cells.set p.loc d2 }
    | none => none
  | none => none

/-! ## Values of the host: `Elem`, `Addr`, `Field`, `Set`, methods -/

/-- The result of `v.Elem()` on a pointer: the variable pointed to, an
addressable value; the zero `Value` for a nil pointer. -/
def Elem (H : Host) (h : Heap) (v : RVal) : Option RVal :=
  match v.data with
  | .ptr (some p) =>
    match h.read p with
    | some d => some { typ := (H.info v.typ).elem, data := d, place := some p,
                       stickyRO := v.stickyRO, embedRO := v.embedRO }
    | none => none
  | _ => none

/-- The result of `v.Addr()`: a pointer to an addressable value. -/
def Addr (H : Host) (v : RVal) : Outcome RVal :=
  match v.place with
  | some p => .ok { typ := H.ptrTo v.typ, data := .ptr (some p),
                    stickyRO := v.stickyRO, embedRO := v.embedRO }
  | none => .fault "reflect.Value.Addr of unaddressable value"

/-- The result of `v.Field(i)` on a struct: the field shares the
addressability of the struct, inherits `flagStickyRO`, and is read-only if
its name is not exported. -/
def Field (H : Host) (v : RVal) (i : Nat) : Outcome RVal :=
  match (H.info v.typ).fields[i]?, v.data.child i with
  | some f, some d =>
    .ok { typ := f.Typ, data := d,
          place := v.place.map (fun p => { p with path := p.path ++ [i] }),
          stickyRO := v.stickyRO || (!f.Exported && !f.Anonymous),
          embedRO := !f.Exported && f.Anonymous }
  | _, _ => .fault "reflect: Field index out of range"

/-- One step of `FieldByIndex` after the first: an embedded pointer to a
struct is dereferenced before the field is selected. -/
def fieldStep (H : Host) (h : Heap) (v : RVal) (x : Nat) : Outcome RVal :=
  if H.kind v.typ = .Ptr ∧ H.kind (H.info v.typ).elem = .Struct then
    if v.data.IsNil then .fault "reflect: indirection through nil pointer to embedded struct"
    else
      match Elem H h v with
      | some e => Field H e x
      | none => .fault "invalid memory address"
  else Field H v x

/-- The steps of `FieldByIndex` after the first. -/
def fieldSteps (H : Host) (h : Heap) : RVal → List Nat → Outcome RVal
  | v, [] => .ok v
  | v, x :: xs => (fieldStep H h v x).bind (fun f => fieldSteps H h f xs)

/-- The result of `v.FieldByIndex(index)`. -/
def FieldByIndex (H : Host) (h : Heap) (v : RVal) : List Nat → Outcome RVal
  | [] => .ok v
  | x :: xs => (Field H v x).bind (fun f => fieldSteps H h f xs)

/-! ## Field lookup by name: `reflect.Type.FieldByName`

The breadth-first search of the host over the embedded structs of a struct
type: the shallowest field with the name wins, and a name that appears more
than once at the shallowest depth is not found. -/

/-- An embedded struct queued for the search, with the index path to it. -/
structure FieldScan where
  typ : TypeRef
  index : List Nat

/-- The state of the search while one depth is processed. -/
structure ScanState where
  visited : List TypeRef
  next : List FieldScan := []
  nextCount : List (TypeRef × Nat) := []
  result : Option (List Nat) := none
  /-- The name appeared more than once at this depth. -/
  annihilated : Bool := false

/-- The multiplicity recorded for a type. -/
def countOf (m : List (TypeRef × Nat)) (t : TypeRef) : Nat := (m.lookup t).getD 0

/-- The struct type of an embedded field of type `T` or `*T`. -/
def embeddedStruct (H : Host) (f : StructField) : Option TypeRef :=
  if f.Anonymous then
    let ntyp := if H.kind f.Typ = .Ptr then (H.info f.Typ).elem else f.Typ
    if H.kind ntyp = .Struct then some ntyp else none
  else none

/-- The search at one field of a queued struct. -/
def scanField (H : Host) (name : String) (count : List (TypeRef × Nat)) (scan : FieldScan)
    (st : ScanState) (i : Nat) (f : StructField) : ScanState :=
  if st.annihilated then st
  else if f.Name = name then
    if countOf count scan.typ > 1 || st.result.isSome then
      { st with result := none, annihilated := true }
    else { st with result := some (scan.index ++ [i]) }
  else if st.result.isSome then st
  else
    match embeddedStruct H f with
    | none => st
    | some styp =>
      if countOf st.nextCount styp > 0 then
        { st with nextCount := (styp, 2) :: st.nextCount }
      else
        { st with
          nextCount := (styp, if countOf count scan.typ > 1 then 2 else 1) :: st.nextCount,
          next := st.next ++ [{ typ := styp, index := scan.index ++ [i] }] }

/-- The search over the fields of a queued struct, from field `i` on. -/
def scanFields (H : Host) (name : String) (count : List (TypeRef × Nat)) (scan : FieldScan) :
    ScanState → Nat → List StructField → ScanState
  | st, _, [] => st
  | st, i, f :: fs => scanFields H name count scan (scanField H name count scan st i f) (i + 1) fs

/-- The search over the structs queued at one depth. -/
def scanLevel (H : Host) (name : String) (count : List (TypeRef × Nat)) :
    ScanState → List FieldScan → ScanState
  | st, [] => st
  | st, scan :: rest =>
    if st.annihilated then st
    else if scan.typ ∈ st.visited then scanLevel H name count st rest
    else
      scanLevel H name count
        (scanFields H name count scan { st with visited := scan.typ :: st.visited } 0
          (H.info scan.typ).fields)
        rest

/-- The loop over the depths, at most `fuel` of them. -/
def scanLevels (H : Host) (name : String) :
    Nat → List FieldScan → List (TypeRef × Nat) → List TypeRef → Option (List Nat)
  | 0, _, _, _ => none
  | fuel + 1, current, count, visited =>
    match current with
    | [] => none
    | _ =>
      let st := scanLevel H name count { visited := visited } current
      if st.annihilated then none
      else
        match st.result with
        | some idx => some idx
        | none => scanLevels H name fuel st.next st.nextCount st.visited

/-- The position of the first field with a name among the declared fields. -/
def directField (name : String) : Nat → List StructField → Option Nat
  | _, [] => none
  | i, f :: fs => if f.Name = name then some i else directField name (i + 1) fs

/-- The result of `t.FieldByName(name)` on a struct type: the index path of
the field, if it is found. -/
def typeFieldByName (H : Host) (t : TypeRef) (name : String) : Option (List Nat) :=
  match directField name 0 (H.info t).fields with
  | some i => some [i]
  | none =>
    if (H.info t).fields.any (fun f => f.Anonymous) then
      scanLevels H name (H.depth + 1) [{ typ := t, index := [] }] [] []
    else none

/-- The result of `v.FieldByName(name)`: the field, or the zero `Value`
(`none`) if there is none. -/
def FieldByName (H : Host) (h : Heap) (v : RVal) (name : String) : Outcome (Option RVal) :=
  if H.kind v.typ = .Struct then
    match typeFieldByName H v.typ name with
    | some idx => (FieldByIndex H h v idx).map some
    | none => .ok none
  else .fault "reflect: call of reflect.Value.FieldByName on a value that is not a struct"

/-- The result of `v.MethodByName(name)`: the method value, or the zero
`Value` (`none`) if the method set of the type has no such method. -/
def MethodByName (H : Host) (v : RVal) (name : String) : Outcome (Option RVal) :=
  match v.data with
  | .methodVal _ _ _ => .ok none
  | _ =>
    match (H.info v.typ).methods.lookup name with
    | some ft =>
      if H.kind v.typ = .Interface ∧ v.data.IsNil then
        .fault "reflect: Method on nil interface value"
      else .ok (some { typ := ft, data := .methodVal v.typ v.data name,
                       stickyRO := v.isRO })
    | none => .ok none

/-- The content stored by `f.Set(x)`: the content of `x`, boxed if `f` is
of an interface type that the type of `x` implements. -/
def assignTo (H : Host) (x : RVal) (dst : TypeRef) : Outcome Data :=
  if x.typ = dst || H.directlyAssignable x.typ dst then .ok x.data
  else if H.kind dst = .Interface ∧ H.implements x.typ dst then
    match H.kind x.typ with
    | .Interface => .ok x.data
    | _ => .ok (.iface x.typ x.data)
  else .fault "reflect.Set: value is not assignable to type"

/-- The effect of `f.Set(x)`: the outcome and the heap after it. -/
def Set (H : Host) (h : Heap) (f x : RVal) : Outcome Unit × Heap :=
  match f.place, f.CanSet with
  | some p, true =>
    if x.isRO then
      (.fault "reflect: reflect.Value.Set using value obtained using unexported field", h)
    else
      match assignTo H x f.typ with
      | .ok d =>
        match h.write p d with
        | some h2 => (.ok (), h2)
        | none => (.fault "invalid memory address", h)
      | .error e => (.error e, h)
      | .fault m => (.fault m, h)
  | _, _ => (.fault "reflect: reflect.Value.Set using unaddressable value", h)

/-! ## Attribute resolution

The methods `Attr`, `AttrAlias` and `SetField` of the facades `goStruct`
and `goPtr`.  An attribute lookup returns a facade, the absent result
(`none`, the pair `nil, nil` of the source), or an error. -/

/-- The source function `method`: the `Attr` method of all facades except
struct and pointer. -/
def method (H : Host) (v : RVal) (name : String) : Outcome (Option SValue) :=
  (MethodByName H v name).map (fun m => m.map SValue.goFunc)

/-- The source method `goStruct.Attr`. -/
def goStruct.Attr (H : Host) (h : Heap) (s : RVal) (name : String) : Outcome (Option SValue) :=
  (MethodByName H s name).bind fun m =>
    match m with
    | some m => .ok (some (.goFunc m))
    | none =>
      -- no *T methods!
      (FieldByName H h s name).bind fun f =>
        match f with
        | some f => ((copyVal H f).bind (wrap H)).map some
        | none => .ok none

/-- The source method `goStruct.AttrAlias`. -/
def goStruct.AttrAlias (H : Host) (h : Heap) (s : RVal) (name : String) :
    Outcome (Option SValue) :=
  (MethodByName H s name).bind fun m =>
    match m with
    | some m => .ok (some (.goFunc m))
    | none =>
      let viaPtr : Outcome (Option RVal) :=
        if s.CanAddr then (Addr H s).bind (fun ptr => MethodByName H ptr name) else .ok none
      viaPtr.bind fun m =>
        match m with
        | some m => .ok (some (.goFunc m))
        | none =>
          (FieldByName H h s name).bind fun f =>
            match f with
            | some f =>
              if !f.CanInterface then .error (.unexportedField name)
              else if s.CanAddr then ((Addr H f).bind (fun a => wrap H (some a))).map some
              else (wrap H (some f)).map some
            | none => .ok none

/-- The source method `goPtr.AttrAlias`. -/
def goPtr.AttrAlias (H : Host) (h : Heap) (v : RVal) (name : String) :
    Outcome (Option SValue) :=
  (MethodByName H v name).bind fun m =>
    match m with
    | some m => .ok (some (.goFunc m))
    | none =>
      if H.kind (H.info v.typ).elem = .Struct then
        if v.data.IsNil then .error .nilDereference
        else
          match Elem H h v with
          | none => .fault "invalid memory address"
          | some e =>
            (FieldByName H h e name).bind fun f =>
              match f with
              | some f =>
                if !f.CanInterface then .error (.unexportedField name)
                else ((Addr H f).bind (fun a => wrap H (some a))).map some
              | none => .ok none
      else .ok none

/-- The source method `goPtr.Attr`. -/
def goPtr.Attr (H : Host) (h : Heap) (v : RVal) (name : String) : Outcome (Option SValue) :=
  (MethodByName H v name).bind fun m =>
    match m with
    | some m => .ok (some (.goFunc m))
    | none =>
      if H.kind (H.info v.typ).elem = .Struct then
        if v.data.IsNil then .error .nilDereference
        else
          match Elem H h v with
          | none => .fault "invalid memory address"
          | some e =>
            (FieldByName H h e name).bind fun f =>
              match f with
              | some f =>
                if !f.CanInterface then .error (.unexportedField name)
                else ((copyVal H f).bind (wrap H)).map some
              | none => .ok none
      else .ok none

/-- The source method `goPtr.SetField`: the returned error (or fault) and
the heap after the call. -/
def goPtr.SetField (H : Host) (h : Heap) (p : RVal) (name : String) (val : SValue) :
    Outcome Unit × Heap :=
  let cannot : Outcome Unit × Heap :=
    (.error (.cannotSetField name (TypeName H (.goPtr p))), h)
  if p.data.IsNil then (.error .nilDereference, h)
  else
    match Elem H h p with
    | none => (.fault "invalid memory address", h)
    | some elem =>
      if H.kind elem.typ = .Struct then
        match FieldByName H h elem name with
        | .ok (some f) =>
          if f.CanSet then
            match convert H val f.typ with
            | .ok x => Set H h f x
            | .error e => (.error e, h)
            | .fault m => (.fault m, h)
          else cannot
        | .ok none => cannot
        | .error e => (.error e, h)
        | .fault m => (.fault m, h)
      else cannot

/-! ## Attribute names -/

/-- The lexicographic order on lists of code points. -/
def codesLess : List Nat → List Nat → Bool
  | _, [] => false
  | [], _ :: _ => true
  | a :: as, b :: bs => decide (a < b) || (decide (a = b) && codesLess as bs)

/-- The Go operator `<` on strings: the lexicographic order of the bytes,
which for UTF-8 is that of the code points. -/
def stringLess (s t : String) : Bool :=
  codesLess (s.data.map Char.toNat) (t.data.map Char.toNat)

/-- Insertion of a string into a sorted list. -/
def insertString (s : String) : List String → List String
  | [] => [s]
  | t :: ts => if stringLess t s then t :: insertString s ts else s :: t :: ts

/-- The result of `sort.Strings`: the strings in ascending order. -/
def sortStrings : List String → List String
  | [] => []
  | s :: ss => insertString s (sortStrings ss)

/-- The source function `methodNames`: the `AttrNames` method of all facades
except struct and pointer. -/
def methodNames (H : Host) (v : RVal) : List String :=
  sortStrings ((H.info v.typ).methods.map (fun m => m.1))

/-- The source method `goStruct.AttrNames`: the methods of the type, or of
the pointer type if the struct is addressable, and the declared fields
(`NumField` and `Field(i)`), sorted. -/
def goStruct.AttrNames (H : Host) (s : RVal) : List String :=
  let t := s.typ
  let recv := if s.CanAddr then H.ptrTo t else t
  sortStrings ((H.info recv).methods.map (fun m => m.1) ++
    (H.info t).fields.map (fun f => f.Name))

/-- The source method `goPtr.AttrNames`: the methods of the pointer type
and, if the pointee type is a struct, its declared fields, sorted. -/
def goPtr.AttrNames (H : Host) (p : RVal) : List String :=
  let t := p.typ
  let elem := (H.info t).elem
  sortStrings ((H.info t).methods.map (fun m => m.1) ++
    (if H.kind elem = .Struct then (H.info elem).fields.map (fun f => f.Name) else []))

/-! ## Struct assignment and type calls -/

/-- The source method `goStruct.SetField`: the returned error (or fault)
and the memory after the call. -/
def goStruct.SetField (H : Host) (h : Heap) (s : RVal) (name : String) (v : SValue) :
    Outcome Unit × Heap :=
  match FieldByName H h s name with
  | .ok none => (.error (.structHasNoField name), h)
  | .ok (some f) =>
    match convert H v f.typ with
    | .ok x =>
      if !f.CanSet then (.error (.cannotSetStructField name), h)
      else Set H h f x
    | .error e => (.error e, h)
    | .fault m => (.fault m, h)
  | .error e => (.error e, h)
  | .fault m => (.fault m, h)

/-- The result of `fmt.Sprint(t.t)` for the field of a `Type` facade. -/
def TypeIface.str (H : Host) : TypeIface → String
  | .nil => "<nil>"
  | .ptr none => "<nil>"
  | .ptr (some t) => (H.info t).str

/-- The source method `Type.CallInternal`: `T()` is the zero value of `T`,
and `T(x)` a conversion. -/
def goType.CallInternal (H : Host) (t : TypeIface) (args kwargs : List SValue) :
    Outcome SValue :=
  if kwargs.length > 0 then .error (.typeKeywordArguments (t.str H))
  else if args.length > 1 then .error (.typeArity (t.str H) args.length)
  else
    match t with
    | .ptr (some ty) =>
      match args with
      | [x] => (convert H x ty).bind (fun r => wrap H (some r))
      | _ => wrap H (some (Zero H ty))
    | _ => .fault "invalid memory address or nil pointer dereference"

/-! ## Function calls -/

/-- The result of `f.Call(in)`: the function and its arguments must not be
read-only; the function is then executed by the host. -/
def Call (H : Host) (h : Heap) (f : RVal) (ins : List RVal) : CallResult :=
  if f.isRO || ins.any (fun x => x.isRO) then
    .panics "reflect: reflect.Value.Call using value obtained using unexported field" h
  else H.call h f.data ins

/-- The type that argument `i` of a call is converted to: the type of
parameter `i`, or the element type of the last parameter for the variadic
arguments. -/
def paramType (H : Host) (ft : TypeInfo) (i : Nat) : Option TypeRef :=
  if ft.variadic && decide (ft.ins.length - 1 ≤ i) then
    (ft.ins[ft.ins.length - 1]?).map (fun t => (H.info t).elem)
  else ft.ins[i]?

/-- The loop of `goFunc.CallInternal` over the arguments, from argument
`i` on: each is converted to the type of its parameter. -/
def convertArgs (H : Host) (ft : TypeInfo) (fn : String) : Nat → List SValue → Outcome (List RVal)
  | _, [] => .ok []
  | i, arg :: rest =>
    match paramType H ft i with
    | none => .fault "reflect: Func index out of bounds"
    | some t =>
      match convert H arg t with
      | .ok x => (convertArgs H ft fn (i + 1) rest).map (fun xs => x :: xs)
      | .error e => .error (.inArgument (i + 1) fn e)
      | .fault m => .fault m

/-- The arity check of `goFunc.CallInternal`: whether a call with `n`
arguments is rejected. -/
def arityRejected (ft : TypeInfo) (n : Nat) : Bool :=
  decide (n < ft.ins.length) || (decide (n > ft.ins.length) && !ft.variadic)

/-- The facades of a list of values, in order. -/
def wrapAll (H : Host) : List RVal → Outcome (List SValue)
  | [] => .ok []
  | r :: rs => (wrap H (some r)).bind (fun x => (wrapAll H rs).map (fun xs => x :: xs))

/-- The result of a call that returned normally: `None`, the facade of the
single result, or the tuple of the facades of the results. -/
def wrapResults (H : Host) (outs : List (TypeRef × Data)) : Outcome SValue :=
  match outs with
  | [] => .ok .NoneV
  | [o] => wrap H (some (ValueOf o.1 o.2))
  | _ => (wrapAll H (outs.map (fun o => ValueOf o.1 o.2))).map SValue.TupleV

/-- The source method `goFunc.CallInternal`: the result or error of the
call, and the memory after it.  A panic of the Go function is recovered and
returned as an error. -/
def goFunc.CallInternal (H : Host) (h : Heap) (f : RVal) (args kwargs : List SValue) :
    Outcome SValue × Heap :=
  if kwargs.length > 0 then (.error (.noNamedArguments (H.funcName f.data)), h)
  else if f.data.IsNil then (.error .callOfNilFunction, h)
  else
    let ft := H.info f.typ
    if arityRejected ft args.length then
      (.error (.arityMismatch (H.funcName f.data) args.length ft.ins.length), h)
    else
      match convertArgs H ft (H.funcName f.data) 0 args with
      | .error e => (.error e, h)
      | .fault m => (.fault m, h)
      | .ok ins =>
        match Call H h f ins with
        | .panics value h2 => (.error (.panicInGoFunction (H.funcName f.data) value), h2)
        | .returns outs h2 => (wrapResults H outs, h2)

/-! ## Maps -/

/-- Whether the value is a NaN. -/
def F64.isNaN (f : F64) : Bool := decide (f.expo = 2047) && decide (f.mant ≠ 0)

/-- The Go operator `==` on floats: a NaN is equal to nothing, and the two
zeros are equal. -/
def F64.eq (a b : F64) : Bool :=
  !a.isNaN && !b.isNaN && (decide (a.bits = b.bits) || (a.isZero && b.isZero))

mutual
/-- The Go operator `==` on the contents of two values of one comparable
type: the equality of map keys. -/
def keyEq : Data → Data → Bool
  | .bool a, .bool b => a == b
  | .int a, .int b => a == b
  | .float a, .float b => F64.eq a b
  | .complex a b, .complex c d => F64.eq a c && F64.eq b d
  | .str a, .str b => a == b
  | .ptr a, .ptr b => a == b
  | .rtypePtr a, .rtypePtr b => a == b
  | .unsafePtr a, .unsafePtr b => a == b
  | .chan a, .chan b => a == b
  | .nilIface, .nilIface => true
  | .iface t a, .iface u b => t == u && keyEq a b
  | .struct xs, .struct ys => keyEqList xs ys
  | .array xs, .array ys => keyEqList xs ys
  | _, _ => false
/-- The equality of the fields or elements of two aggregates. -/
def keyEqList : List Data → List Data → Bool
  | [], [] => true
  | x :: xs, y :: ys => keyEq x y && keyEqList xs ys
  | _, _ => false
end

mutual
/-- Whether a key can be hashed: a slice, map or function, also within an
interface, struct or array, cannot (the runtime panics). -/
def hashable : Data → Bool
  | .slice _ | .map _ | .nilFunc | .func _ | .methodVal _ _ _ => false
  | .iface _ d => hashable d
  | .struct xs => hashableList xs
  | .array xs => hashableList xs
  | _ => true
/-- Whether all the fields or elements of an aggregate can be hashed. -/
def hashableList : List Data → Bool
  | [] => true
  | x :: xs => hashable x && hashableList xs
end

/-- The runtime function `mapassign`: the entry with an equal key is
replaced, or a new entry is added. -/
def mapAssign (k v : Data) : List (Data × Data) → List (Data × Data)
  | [] => [(k, v)]
  | e :: es => if keyEq k e.1 then (k, v) :: es else e :: mapAssign k v es

/-- The effect of `m.SetMapIndex(key, elem)` on a map `m` that is not nil,
for a valid `elem`. -/
def SetMapIndex (H : Host) (h : Heap) (m key elem : RVal) : Outcome Unit × Heap :=
  if m.isRO || key.isRO then
    (.fault "reflect: reflect.Value.SetMapIndex using value obtained using unexported field", h)
  else
    match assignTo H key (H.info m.typ).key with
    | .ok k =>
      if elem.isRO then
        (.fault "reflect: reflect.Value.SetMapIndex using value obtained using unexported field", h)
      else
        match assignTo H elem (H.info m.typ).elem with
        | .ok e =>
          if !hashable k then (.fault "runtime error: hash of unhashable type", h)
          else
            match m.data with
            | .map (some i) =>
              match h.maps[i]? with
              | some es => (.ok (), { h with maps := h.maps.set i (mapAssign k e es) })
              | none => (.fault "invalid memory address", h)
            | _ => (.fault "assignment to entry in nil map", h)
        | .error err => (.error err, h)
        | .fault msg => (.fault msg, h)
    | .error err => (.error err, h)
    | .fault msg => (.fault msg, h)

/-- The source method `goMap.SetKey`: the returned error (or fault) and the
memory after the call. -/
def goMap.SetKey (H : Host) (h : Heap) (m : RVal) (k v : SValue) : Outcome Unit × Heap :=
  let t := H.info m.typ
  match convert H k t.key with
  | .error e => (.error (.invalidMapKey e), h)
  | .fault msg => (.fault msg, h)
  | .ok kv =>
    match convert H v t.elem with
    | .error e => (.error (.invalidMapElement e), h)
    | .fault msg => (.fault msg, h)
    | .ok vv =>
      if m.data.IsNil then (.error .nilMapAssignment, h)
      else SetMapIndex H h m kv vv

/-- The entries of a map; a nil map has none. -/
def mapEntries (h : Heap) (m : RVal) : List (Data × Data) :=
  match m.data with
  | .map (some i) => (h.maps[i]?).getD []
  | _ => []

/-- The source method `goMap.Len`. -/
def goMap.Len (h : Heap) (m : RVal) : Nat := (mapEntries h m).length

/-- The keys that the iterator of `goMap.Iterate` visits, as `it.Key()`
returns them, in the order of the host. -/
def iterKeys (H : Host) (h : Heap) (m : RVal) : List RVal :=
  (H.mapOrder (mapEntries h m)).map
    (fun e => { typ := (H.info m.typ).key, data := e.1, stickyRO := m.isRO })

/-- The values that the iterator of `goMap.Iterate` yields until it is
exhausted: the facades of the keys. -/
def goMap.Iterate (H : Host) (h : Heap) (m : RVal) : Outcome (List SValue) :=
  wrapAll H (iterKeys H h m)

/-! ## Channels -/

/-- The effect of `c.Close()` on a channel that is not nil: it panics, as
documented, on a receive-only channel and on a closed channel, and as every
operation of the host that modifies, on a read-only value. -/
def Close (H : Host) (h : Heap) (c : RVal) : Outcome Unit × Heap :=
  if c.isRO then
    (.fault "reflect: reflect.Value.Close using value obtained using unexported field", h)
  else if (H.info c.typ).chanDir = .RecvDir then
    (.fault "reflect: close of receive-only channel", h)
  else
    match c.data with
    | .chan (some i) =>
      match h.chans[i]? with
      | some st =>
        if st.closed then (.fault "close of closed channel", h)
        else (.ok (), { h with chans := h.chans.set i { st with closed := true } })
      | none => (.fault "invalid memory address", h)
    | _ => (.fault "close of nil channel", h)

/-- The body of the source function `builtin_close`, on its parameters
`args` and `kwargs`: they are unpacked as one channel facade; a panic of
`Close` is recovered and the error that was set before the call is
returned.  A script does not reach this function with its own arguments:
see `Builtins.close`. -/
def builtin_close (H : Host) (h : Heap) (args kwargs : List SValue) : Outcome SValue × Heap :=
  match kwargs, args with
  | [], [.goChan ch] =>
    if ch.data.IsNil then (.error .closeOfNilChannel, h)
    else
      match Close H h ch with
      | (.ok (), h2) => (.ok .NoneV, h2)
      | (_, h2) => (.error .closeAlreadyClosed, h2)
  | _, _ => (.error (.unpackArgs "close"), h)

/-- A call `close(args, kwargs)` of the entry `close` of the source module
`Builtins`.  The entry is `ValueOf(builtin_close)`, the function facade of
the Go function `builtin_close`, and not a `starlark.Builtin` as the entries
`cap`, `append` and `slice` are: the call is `goFunc.CallInternal` on that
facade, which checks the arguments of the script against the four
parameters `thread`, `b`, `args` and `kwargs` of the Go function and
converts them to the types of these.  `fn` is the Go function as a value of
the host. -/
def Builtins.close (H : Host) (h : Heap) (fn : RVal) (args kwargs : List SValue) :
    Outcome SValue × Heap :=
  goFunc.CallInternal H h fn args kwargs

/-! ## Comparison of pointers -/

/-- The comparison operators of the scripting engine. -/
inductive Token
  | EQL | NEQ | LT | GT | LE | GE
  deriving DecidableEq, Repr

/-- The result of `String()` of a comparison operator. -/
def Token.str : Token → String
  | .EQL => "=="
  | .NEQ => "!="
  | .LT => "<"
  | .GT => ">"
  | .LE => "<="
  | .GE => ">="

/-- The Go operator `==` on two `reflect.Value` structs holding pointers:
the same type, pointer word and flags.  The pointer word of a value that is
stored directly, as the results of `reflect.ValueOf`, `Value.Addr` and
`Value.Convert` are, is the pointer itself, and that of an addressable value
is its place; these are what the definition compares.  For a pointer that
is read in place from a field of a detached struct, the word is the address
of the field in that copy of the struct, which a value of the model does not
carry: two such values are compared here by the pointers they hold. -/
def sameValue (x y : RVal) : Bool :=
  x.typ == y.typ && keyEq x.data y.data && x.place == y.place &&
    x.stickyRO == y.stickyRO && x.embedRO == y.embedRO

/-- The source method `goPtr.CompareSameType`. -/
def goPtr.CompareSameType (H : Host) (op : Token) (x y : RVal) : Outcome Bool :=
  match op with
  | .EQL => .ok (sameValue x y)
  | .NEQ => .ok (!sameValue x y)
  | _ =>
    .error (.invalidComparison (TypeName H (.goPtr x)) op.str (TypeName H (.goPtr y)))

/-- The source method `goUnsafePointer.CompareSameType`. -/
def goUnsafePointer.CompareSameType (_H : Host) (_op : Token) (_x _y : RVal) : Outcome Bool :=
  .error .unsafePointerComparison

/-! ## Arrays and slices -/

/-- The result of `v.Len()` on an array or a slice. -/
def Len (H : Host) (v : RVal) : Nat :=
  match H.kind v.typ with
  | .Array => (H.info v.typ).len
  | _ =>
    match v.data with
    | .slice (some s) => s.len
    | _ => 0

/-- The place of element `i` of a slice. -/
def SliceHdr.elemPlace (s : SliceHdr) (i : Nat) : Place :=
  { s.arr with path := s.arr.path ++ [s.off + i] }

/-- The result of `v.Index(i)` on an array or a slice.  An element of an
array shares the addressability of the array; an element of a slice is
always addressable; both are read-only if the array or slice is. -/
def Index (H : Host) (h : Heap) (v : RVal) (i : Nat) : Outcome RVal :=
  match H.kind v.typ with
  | .Array =>
    if i < (H.info v.typ).len then
      match v.data.child i with
      | some d =>
        .ok { typ := (H.info v.typ).elem, data := d,
              place := v.place.map (fun p => { p with path := p.path ++ [i] }),
              stickyRO := v.isRO }
      | none => .fault "invalid memory address"
    else .fault "reflect: array index out of range"
  | .Slice =>
    match v.data with
    | .slice (some s) =>
      if i < s.len then
        match h.read (s.elemPlace i) with
        | some d =>
          .ok { typ := (H.info v.typ).elem, data := d, place := some (s.elemPlace i),
                stickyRO := v.isRO }
        | none => .fault "invalid memory address"
      else .fault "reflect: slice index out of range"
    | _ => .fault "reflect: slice index out of range"
  | _ => .fault "reflect: call of reflect.Value.Index on a value that is not an array or slice"

/-- The source method `goArray.Index`. -/
def goArray.Index (H : Host) (h : Heap) (a : RVal) (i : Nat) : Outcome SValue :=
  ((Stargo.Index H h a i).bind (copyVal H)).bind (wrap H)

/-- The source method `goArray.IndexAlias`. -/
def goArray.IndexAlias (H : Host) (h : Heap) (a : RVal) (i : Nat) : Outcome SValue :=
  (Stargo.Index H h a i).bind fun elem =>
    if elem.CanAddr then (Addr H elem).bind (fun p => wrap H (some p))
    else wrap H (some elem)

/-- The source method `goArray.SetIndex`: the returned error (or fault) and
the memory after the call. -/
def goArray.SetIndex (H : Host) (h : Heap) (a : RVal) (i : Nat) (v : SValue) :
    Outcome Unit × Heap :=
  match Stargo.Index H h a i with
  | .ok elem =>
    match convert H v elem.typ with
    | .ok x =>
      if !elem.CanSet then (.error .cannotSetArrayElement, h)
      else Set H h elem x
    | .error e => (.error e, h)
    | .fault m => (.fault m, h)
  | .error e => (.error e, h)
  | .fault m => (.fault m, h)

/-- The source method `goSlice.Index`. -/
def goSlice.Index (H : Host) (h : Heap) (s : RVal) (i : Nat) : Outcome SValue :=
  ((Stargo.Index H h s i).bind (copyVal H)).bind (wrap H)

/-- The source method `goSlice.SetIndex`: the returned error (or fault) and
the memory after the call. -/
def goSlice.SetIndex (H : Host) (h : Heap) (s : RVal) (i : Nat) (v : SValue) :
    Outcome Unit × Heap :=
  match Stargo.Index H h s i with
  | .ok elem =>
    match convert H v elem.typ with
    | .ok x =>
      if !elem.CanSet then (.error .cannotSetSliceElement, h)
      else Set H h elem x
    | .error e => (.error e, h)
    | .fault m => (.fault m, h)
  | .error e => (.error e, h)
  | .fault m => (.fault m, h)

/-- The values that the source iterator `indexIterator` yields from index
`i` on, for `n` more elements: the facade of a copy of each element. -/
def indexIterate (H : Host) (h : Heap) (v : RVal) : Nat → Nat → Outcome (List SValue)
  | 0, _ => .ok []
  | n + 1, i =>
    (((Index H h v i).bind (copyVal H)).bind (wrap H)).bind fun x =>
      (indexIterate H h v n (i + 1)).map (fun xs => x :: xs)

/-- The values that the iterator of `goArray.Iterate` and `goSlice.Iterate`
yields until it is exhausted. -/
def goArray.Iterate (H : Host) (h : Heap) (a : RVal) : Outcome (List SValue) :=
  indexIterate H h a (Len H a) 0

/-! ## Values of the host program, and the builtins on slices -/

/-- The source function `ValueOf`: the facade of a Go value given as an
`interface{}`, which is nil or holds a type and a content. -/
def goValueOf (H : Host) (x : Option (TypeRef × Data)) : Outcome SValue :=
  match x with
  | none => .ok .NoneV
  | some (t, d) => wrap H (some (ValueOf t d))

/-- The source function `VarOf`: the facade of a pointer to a variable. -/
def VarOf (H : Host) (ptr : Option (TypeRef × Data)) : Outcome SValue :=
  match ptr with
  | none => .fault "not a pointer"
  | some (t, d) => if H.kind t = .Ptr then wrap H (some (ValueOf t d)) else .fault "not a pointer"

/-- The loop of `builtin_append` over the values to append: each is converted
to the element type of the slice. -/
def convertAll (H : Host) (fn : String) (t : TypeRef) : Nat → List SValue → Outcome (List RVal)
  | _, [] => .ok []
  | i, arg :: rest =>
    match convert H arg t with
    | .ok x => (convertAll H fn t (i + 1) rest).map (fun xs => x :: xs)
    | .error e => .error (.builtinInArgument fn (i + 2) e)
    | .fault m => .fault m

/-- The source function `builtin_append`. -/
def builtin_append (H : Host) (h : Heap) (args kwargs : List SValue) : Outcome SValue × Heap :=
  if kwargs.length > 0 then (.error (.builtinKeywordArguments "append"), h)
  else
    match args with
    | [] => (.error (.builtinNoArguments "append"), h)
    | .goSlice s :: rest =>
      match convertAll H "append" (H.info s.typ).elem 0 rest with
      | .ok vals =>
        match H.append h s vals with
        | some (r, h2) => (wrap H (some r), h2)
        | none => (.fault "reflect.Append", h)
      | .error e => (.error e, h)
      | .fault m => (.fault m, h)
    | a :: _ => (.error (.builtinWantSlice "append" (TypeName H a)), h)

/-- The result of `v.Slice3(i, j, k)` on a slice. -/
def Slice3 (v : RVal) (i j k : Int) : Outcome RVal :=
  let cap : Int := match v.data with
    | .slice (some s) => s.cap
    | _ => 0
  if i < 0 ∨ j < i ∨ k < j ∨ cap < k then
    .fault "reflect.Value.Slice3: slice index out of bounds"
  else
    match v.data with
    | .slice (some s) =>
      .ok { typ := v.typ, stickyRO := v.isRO,
            data := .slice (some { arr := s.arr, off := s.off + i.toNat,
                                   len := (j - i).toNat, cap := (k - i).toNat }) }
    | _ => .ok { typ := v.typ, data := .slice none, stickyRO := v.isRO }

/-- The result of `v.Slice(i, j)` on a slice. -/
def Slice (v : RVal) (i j : Int) : Outcome RVal :=
  let cap : Int := match v.data with
    | .slice (some s) => s.cap
    | _ => 0
  if i < 0 ∨ j < i ∨ cap < j then .fault "reflect.Value.Slice: slice index out of bounds"
  else
    match v.data with
    | .slice (some s) =>
      .ok { typ := v.typ, stickyRO := v.isRO,
            data := .slice (some { arr := s.arr, off := s.off + i.toNat,
                                   len := (j - i).toNat, cap := s.cap - i.toNat }) }
    | _ => .ok { typ := v.typ, data := .slice none, stickyRO := v.isRO }

/-- The function `starlark.AsInt32`: a script Int that fits in 32 bits. -/
def AsInt32 : SValue → Option Int
  | .IntV i =>
    if -((2 ^ 31 : Nat) : Int) ≤ i ∧ i < ((2 ^ 31 : Nat) : Int) then some i else none
  | _ => none

/-- The source function `builtin_slice`: the arguments are unpacked as a
slice facade, two indices and an optional capacity. -/
def builtin_slice (H : Host) (args kwargs : List SValue) : Outcome SValue :=
  match kwargs, args with
  | [], [.goSlice s, a, b] =>
    match AsInt32 a, AsInt32 b with
    | some start, some stop => (Slice s start stop).bind (fun r => wrap H (some r))
    | _, _ => .error (.unpackArgs "slice")
  | [], [.goSlice s, a, b, c] =>
    match AsInt32 a, AsInt32 b, AsInt32 c with
    | some start, some stop, some cap =>
      if cap < 0 then (Slice s start stop).bind (fun r => wrap H (some r))
      else (Slice3 s start stop cap).bind (fun r => wrap H (some r))
    | _, _, _ => .error (.unpackArgs "slice")
  | _, _ => .error (.unpackArgs "slice")

/-! ## The invariant of the facades -/

/-- The invariant INV-1 on a script value: the native value that a facade
embeds is not addressable, and its kind is not `Interface`. -/
def invariant (H : Host) (f : SValue) : Prop :=
  ∀ rv, Reflect H f = some rv → rv.CanAddr = false ∧ H.kind rv.typ ≠ .Interface

/-! ## A concrete host

A 64-bit host with a small type table, used to evaluate the bridge on
concrete inputs. -/

/-- The type table of the concrete host. -/
def demoInfo : TypeRef → TypeInfo
  | 0 => { kind := .Bool, str := "bool" }
  | 1 => { kind := .Int, str := "int" }
  | 2 => { kind := .Int8, str := "int8" }
  | 3 => { kind := .Uint8, str := "uint8" }
  | 4 => { kind := .Uint64, str := "uint64" }
  | 5 => { kind := .Float64, str := "float64" }
  | 6 => { kind := .String, str := "string" }
  | 7 => { kind := .Interface, str := "interface \x7b\x7d" }
  | 8 => { kind := .Ptr, str := "*reflect.rtype", elem := 17 }
  | 9 => { kind := .Float64, str := "starlark.Float", pkgPath := "go.starlark.net/starlark" }
  -- type T struct { X int; y int }
  | 10 => { kind := .Struct, str := "main.T", pkgPath := "main",
            fields := [{ Name := "X", Exported := true, Typ := 1 },
                       { Name := "y", Exported := false, Typ := 1 }] }
  | 11 => { kind := .Ptr, str := "*main.T", elem := 10 }
  | 12 => { kind := .Ptr, str := "*int", elem := 1 }
  | 13 => { kind := .Interface, str := "reflect.Type", pkgPath := "reflect",
            methods := [("Kind", 18), ("Name", 18)] }
  | 14 => { kind := .Float32, str := "float32" }
  -- type W struct { t reflect.Type }
  | 15 => { kind := .Struct, str := "main.W", pkgPath := "main",
            fields := [{ Name := "t", Exported := false, Typ := 13 }] }
  | 16 => { kind := .Uint, str := "uint" }
  | 17 => { kind := .Struct, str := "reflect.rtype", pkgPath := "reflect" }
  | 18 => { kind := .Func, str := "func() string", outs := [6] }
  -- type Point struct { X, Y int }; func (p Point) Sum() int
  | 20 => { kind := .Struct, str := "main.Point", pkgPath := "main",
            methods := [("Sum", 22)],
            fields := [{ Name := "X", Exported := true, Typ := 1 },
                       { Name := "Y", Exported := true, Typ := 1 }] }
  | 21 => { kind := .Ptr, str := "*main.Point", elem := 20, methods := [("Sum", 22)] }
  | 22 => { kind := .Func, str := "func() int", outs := [1] }
  -- type Inner struct { A int }; type Outer struct { Inner; B int }
  | 23 => { kind := .Struct, str := "main.Inner", pkgPath := "main",
            fields := [{ Name := "A", Exported := true, Typ := 1 }] }
  | 24 => { kind := .Struct, str := "main.Outer", pkgPath := "main",
            fields := [{ Name := "Inner", Exported := true, Typ := 23, Anonymous := true },
                       { Name := "B", Exported := true, Typ := 1 }] }
  | 25 => { kind := .Ptr, str := "*main.Outer", elem := 24 }
  | 26 => { kind := .Map, str := "map[string]int", key := 6, elem := 1 }
  | 27 => { kind := .Map, str := "map[float64]int", key := 5, elem := 1 }
  | 28 => { kind := .Chan, str := "chan int", elem := 1 }
  | 29 => { kind := .Chan, str := "<-chan int", elem := 1, chanDir := .RecvDir }
  | 30 => { kind := .Interface, str := "error", methods := [("Error", 18)] }
  -- type S struct { E error }
  | 31 => { kind := .Struct, str := "main.S", pkgPath := "main",
            fields := [{ Name := "E", Exported := true, Typ := 30 }] }
  | 32 => { kind := .Ptr, str := "*main.S", elem := 31 }
  -- the type of fmt.Errorf
  | 33 => { kind := .Func, str := "func(string, ...interface \x7b\x7d) error",
            ins := [6, 34], outs := [30], variadic := true }
  | 34 => { kind := .Slice, str := "[]interface \x7b\x7d", elem := 7 }
  -- the type of builtin_panic
  | 35 => { kind := .Func, str := "func(interface \x7b\x7d)", ins := [7] }
  | 36 => { kind := .Func, str := "func() (int, string)", outs := [1, 6] }
  | 37 => { kind := .Ptr, str := "*main.Inner", elem := 23 }
  -- type OuterP struct { *Inner }
  | 38 => { kind := .Struct, str := "main.OuterP", pkgPath := "main",
            fields := [{ Name := "Inner", Exported := true, Typ := 37, Anonymous := true }] }
  | 39 => { kind := .Ptr, str := "*main.OuterP", elem := 38 }
  | 40 => { kind := .Ptr, str := "*error", elem := 30 }
  -- type C struct { ch chan int }
  | 41 => { kind := .Struct, str := "main.C", pkgPath := "main",
            fields := [{ Name := "ch", Exported := false, Typ := 28 }] }
  | 42 => { kind := .Slice, str := "[]int", elem := 1 }
  | 43 => { kind := .Array, str := "[2]int", elem := 1, len := 2 }
  | 44 => { kind := .Slice, str := "[]error", elem := 30 }
  | 45 => { kind := .Ptr, str := "*[2]int", elem := 43 }
  -- the type of builtin_close
  | 46 => { kind := .Func,
            str := "func(*starlark.Thread, *starlark.Builtin, starlark.Tuple, []starlark.Tuple) (starlark.Value, error)",
            ins := [47, 48, 49, 50], outs := [51, 30] }
  | 47 => { kind := .Ptr, str := "*starlark.Thread", elem := 52 }
  | 48 => { kind := .Ptr, str := "*starlark.Builtin", elem := 53 }
  | 49 => { kind := .Slice, str := "starlark.Tuple", pkgPath := "go.starlark.net/starlark",
            elem := 51 }
  | 50 => { kind := .Slice, str := "[]starlark.Tuple", elem := 49 }
  | 51 => { kind := .Interface, str := "starlark.Value", pkgPath := "go.starlark.net/starlark",
            methods := [("Freeze", 54), ("Hash", 57), ("String", 18), ("Truth", 55),
                        ("Type", 18)] }
  -- the fields of these two structs are unexported
  | 52 => { kind := .Struct, str := "starlark.Thread", pkgPath := "go.starlark.net/starlark" }
  | 53 => { kind := .Struct, str := "starlark.Builtin", pkgPath := "go.starlark.net/starlark" }
  | 54 => { kind := .Func, str := "func()" }
  | 55 => { kind := .Func, str := "func() starlark.Bool", outs := [56] }
  | 56 => { kind := .Bool, str := "starlark.Bool", pkgPath := "go.starlark.net/starlark" }
  | 57 => { kind := .Func, str := "func() (uint32, error)", outs := [58, 30] }
  | 58 => { kind := .Uint32, str := "uint32" }
  | _ => { kind := .UnsafePointer, str := "unsafe.Pointer" }

/-- The functions of the concrete host: the method `Sum` of `Point`, on a
value and on a pointer receiver; function 1 formats an error, function 2 is
`builtin_panic`, function 3 returns nothing and function 4 returns two
values.  Function 5 is `builtin_close`: the concrete host has no
`starlark.Builtin`, so its parameter `b` is nil and `b.Name()`, which is
evaluated first, panics. -/
def demoCall (h : Heap) (f : Data) (ins : List RVal) : CallResult :=
  match f with
  | .methodVal 20 (.struct [.int x, .int y]) "Sum" => .returns [(1, .int (x + y))] h
  | .methodVal 21 (.ptr (some p)) "Sum" =>
    match h.read p with
    | some (.struct [.int x, .int y]) => .returns [(1, .int (x + y))] h
    | _ => .panics "runtime error: invalid memory address or nil pointer dereference" h
  | .func 1 => .returns [(30, .iface 6 (.str "error"))] h
  | .func 2 =>
    match ins with
    | [x] => .panics x.data.getString h
    | _ => .panics "" h
  | .func 3 => .returns [] h
  | .func 4 => .returns [(1, .int 1), (6, .str "a")] h
  | .func 5 => .panics "runtime error: invalid memory address or nil pointer dereference" h
  | _ => .panics "not a function" h

/-- The elements of a slice, read from its backing array. -/
def sliceElems (h : Heap) (s : RVal) : List Data :=
  match s.data with
  | .slice (some hdr) =>
    match h.read hdr.arr with
    | some (.array es) => (es.drop hdr.off).take hdr.len
    | _ => []
  | _ => []

/-- The function `reflect.Append` of the concrete host: the elements are
copied to a new backing array, which has no spare capacity. -/
def demoAppend (h : Heap) (s : RVal) (vals : List RVal) : Option (RVal × Heap) :=
  let es := sliceElems h s ++ vals.map (fun x => x.data)
  some ({ typ := s.typ,
          data := .slice (some { arr := { loc := h.cells.length }, off := 0,
                                 len := es.length, cap := es.length }) },
        { h with cells := h.cells ++ [.array es] })

/-- The concrete host: 64-bit words; the conversions that Go leaves to the
implementation yield the least `int64`, as on amd64. -/
def demoHost : Host where
  info := demoInfo
  word := .w64
  rtype := 8
  eface := 7
  tBool := 0
  tInt := 1
  tFloat64 := 5
  tString := 6
  tStarlarkFloat := 9
  floatToInt64 := fun _ => -((2 ^ 63 : Nat) : Int)
  floatToUint64 := fun _ => ((2 ^ 63 : Nat) : Int)
  toFloat32 := fun f => f
  intToFloat := fun _ => ⟨0⟩
  runeString := fun _ => ""
  convertibleOther := fun s d => decide (s = d) || decide (d = 7)
  convertOther := fun s x d => if d = 7 then if s = 7 then x else .iface s x else x
  directlyAssignable := fun _ _ => false
  implements := fun _ d => decide (d = 7)
  ptrTo := fun t =>
    if t = 10 then 11 else if t = 1 then 12 else if t = 17 then 8 else if t = 20 then 21
    else if t = 24 then 25 else if t = 31 then 32 else if t = 23 then 37
    else if t = 38 then 39 else if t = 30 then 40 else if t = 43 then 45 else 19
  depth := 4
  call := demoCall
  funcName := fun f =>
    match f with
    | .func 5 => "go.starlark.net/stargo.builtin_close"
    | _ => "f"
  mapOrder := fun es => es
  append := demoAppend
  mapOrder_perm := fun es => List.Perm.refl es
  eface_kind := rfl
  eface_methods := rfl
  rtype_kind := rfl
  tBool_kind := rfl
  tInt_kind := rfl
  tFloat64_kind := rfl
  tString_kind := rfl
  tStarlarkFloat_kind := rfl

/-- The Go function `builtin_close` as a value of the concrete host. -/
def demoClose : RVal := { typ := 46, data := .func 5 }

end Stargo

/-! ## Lemmas on the conversion engine -/

namespace Stargo

theorem zeroData_bool (H : Host) (n : Nat) (T : TypeRef) (hk : (H.info T).kind = .Bool) :
    zeroData H n T = .bool false := by
  cases n <;> simp [zeroData, Host.kind, hk]

/-- A conversion of a value that is not a slice does not panic. -/
theorem Convert_of_not_slice (H : Host) (v : RVal) (dst : TypeRef)
    (hk : H.kind v.typ ≠ .Slice) : Convert H v dst = .ok (converted H v dst) := by
  simp [Convert, sliceToArrayPtr, sliceToArray, hk]

/-- The types of the Go values that `convert` makes from script primitives
are not slice types. -/
theorem primitive_not_slice (H : Host) :
    H.kind H.tBool ≠ .Slice ∧ H.kind H.tInt ≠ .Slice ∧ H.kind H.tFloat64 ≠ .Slice ∧
    H.kind H.tString ≠ .Slice ∧ H.kind H.tStarlarkFloat ≠ .Slice := by
  simp [Host.kind, H.tBool_kind, H.tInt_kind, H.tFloat64_kind, H.tString_kind,
    H.tStarlarkFloat_kind]

/-- The conversion of a Go value that `convert` makes from a script
primitive does not panic. -/
theorem Convert_primitive (H : Host) (d : Data) (dst : TypeRef) :
    Convert H (ValueOf H.tBool d) dst = .ok (converted H (ValueOf H.tBool d) dst) ∧
    Convert H (ValueOf H.tInt d) dst = .ok (converted H (ValueOf H.tInt d) dst) ∧
    Convert H (ValueOf H.tFloat64 d) dst = .ok (converted H (ValueOf H.tFloat64 d) dst) ∧
    Convert H (ValueOf H.tString d) dst = .ok (converted H (ValueOf H.tString d) dst) ∧
    Convert H (ValueOf H.tStarlarkFloat d) dst =
      .ok (converted H (ValueOf H.tStarlarkFloat d) dst) :=
  ⟨Convert_of_not_slice H _ dst (primitive_not_slice H).1,
   Convert_of_not_slice H _ dst (primitive_not_slice H).2.1,
   Convert_of_not_slice H _ dst (primitive_not_slice H).2.2.1,
   Convert_of_not_slice H _ dst (primitive_not_slice H).2.2.2.1,
   Convert_of_not_slice H _ dst (primitive_not_slice H).2.2.2.2⟩

/-- A script value that is not a facade is converted by the kind switch. -/
theorem convert_of_not_isValue (H : Host) (v : SValue) (T : TypeRef) (hv : isValue v = false) :
    convert H v T = convertPrimitive H v T := by
  cases v <;> simp [convert, isValue] at hv ⊢

theorem intBits_pos (H : Host) (k : Kind) (hk : isIntegerKind k = true) : 1 ≤ intBits H k := by
  cases k <;> simp [isIntegerKind, isSignedKind, isUnsignedKind, intBits] at hk ⊢
  all_goals cases H.word <;> simp [WordSize.bits]

theorem two_pow_split (w : Nat) (hw : 1 ≤ w) :
    ((2 ^ w : Nat) : Int) = 2 * ((2 ^ (w - 1) : Nat) : Int) := by
  obtain ⟨j, rfl⟩ : ∃ j, w = j + 1 := ⟨w - 1, by omega⟩
  simp [pow_succ]
  ring

/-- An integer that is representable in an integer kind is left unchanged by
`makeInt`. -/
theorem makeInt_of_representable (H : Host) (k : Kind) (n : Int) (hk : isIntegerKind k = true)
    (h : representable H k n) : makeInt H k n = n := by
  have hw := intBits_pos H k hk
  have hM := two_pow_split (intBits H k) hw
  unfold representable minInt maxInt at h
  unfold makeInt
  have ha : (0 : Int) < ((2 ^ (intBits H k - 1) : Nat) : Int) := by positivity
  generalize ((2 ^ (intBits H k - 1) : Nat) : Int) = a at *
  generalize ((2 ^ intBits H k : Nat) : Int) = M at *
  subst hM
  have hdiv : 2 * a / 2 = a := Int.mul_ediv_cancel_left a (by norm_num)
  by_cases hs : isSignedKind k = true
  · simp only [hs, if_true] at h ⊢
    rw [hdiv, Int.emod_eq_of_lt (by omega) (by omega)]
    omega
  · simp only [hs, Bool.false_eq_true, if_false] at h ⊢
    exact Int.emod_eq_of_lt (by omega) (by omega)

/-- An integer that fits the host type `int` passes the range check of
`convert`. -/
theorem int_check_of_representable (H : Host) (n : Int) (h : representable H .Int n) :
    Int64 n = some n ∧ makeInt H .Int64 (makeInt H .Int n) = n := by
  have h1 : makeInt H .Int n = n := makeInt_of_representable H .Int n rfl h
  have hle : ((2 ^ (intBits H .Int - 1) : Nat) : Int) ≤ ((2 ^ 63 : Nat) : Int) := by
    have : intBits H .Int - 1 ≤ 63 := by
      cases hw : H.word <;> simp [intBits, hw, WordSize.bits]
    exact_mod_cast Nat.pow_le_pow_right (by norm_num) this
  have h2 : representable H .Int64 n := by
    unfold representable minInt maxInt at h ⊢
    simp only [isSignedKind, if_true] at h ⊢
    have e : intBits H .Int64 - 1 = 63 := rfl
    rw [e]
    generalize ((2 ^ (intBits H .Int - 1) : Nat) : Int) = a at *
    generalize ((2 ^ 63 : Nat) : Int) = b at *
    omega
  have h3 : makeInt H .Int64 n = n := makeInt_of_representable H .Int64 n rfl h2
  refine ⟨?_, by rw [h1, h3]⟩
  unfold representable minInt maxInt at h2
  simp only [isSignedKind, if_true] at h2
  have e : intBits H .Int64 - 1 = 63 := rfl
  rw [e] at h2
  unfold Int64
  rw [if_pos]
  generalize ((2 ^ 63 : Nat) : Int) = b at *
  omega

end Stargo

/-! ## The conversion engine: claims C1 to C7 -/

namespace Stargo

/-- No script Float is rejected by an integer target: the result is the
host conversion of the float, which truncates. -/
theorem convert_float_to_integer (H : Host) (f : F64) (T : TypeRef)
    (hk : isIntegerKind (H.kind T) = true) :
    convert H (.FloatV f) T = .ok (converted H (ValueOf H.tFloat64 (.float f)) T) := by
  rw [convert_of_not_isValue H (.FloatV f) T rfl]
  have hc := (Convert_primitive H (.float f) T).2.2.1
  unfold Host.kind at hk
  cases hT : (H.info T).kind <;>
    simp [hT, isIntegerKind, isSignedKind, isUnsignedKind] at hk <;>
    simp [convertPrimitive, Host.kind, hT, isNilableKind, hc]

/-- C1, at the failing input: the script Float 1.5 has a non-zero fractional
part and the target `int` is of an integer kind, yet `convert` returns the
truncated integer 1 and no error. -/
theorem convert_fractional_float_truncates :
    (⟨0x3FF8000000000000⟩ : F64).hasFraction = true ∧
    isIntegerKind (demoHost.kind 1) = true ∧
    convert demoHost (.FloatV ⟨0x3FF8000000000000⟩) 1 = .ok { typ := 1, data := .int 1 } :=
  ⟨rfl, rfl, rfl⟩

/-- A script Int that fits the host type `int` is never rejected by an
integer target: the result holds the low bits of the integer. -/
theorem convert_int_to_integer (H : Host) (n : Int) (T : TypeRef)
    (hk : isIntegerKind (H.kind T) = true) (hn : representable H .Int n) :
    convert H (.IntV n) T = .ok { typ := T, data := .int (makeInt H (H.kind T) n) } := by
  obtain ⟨h64, hchk⟩ := int_check_of_representable H n hn
  have h1 : makeInt H .Int n = n := makeInt_of_representable H .Int n rfl hn
  have hi := H.tInt_kind
  rw [h1] at hchk
  rw [convert_of_not_isValue H (.IntV n) T rfl]
  unfold Host.kind at hk
  cases hT : (H.info T).kind <;>
    simp [hT, isIntegerKind, isSignedKind, isUnsignedKind] at hk <;>
    simp [convertPrimitive, Host.kind, hT, isNilableKind, h64, hchk, h1,
      Convert, sliceToArrayPtr, sliceToArray, converted, ValueOf,
      convertData, hi, isIntegerKind, isSignedKind, isUnsignedKind, Data.getInt]

/-- C2, at the failing input: 300 is not representable in the 8-bit signed
target `int8`, yet `convert` returns the `int8` value 44 (300 modulo 256)
and no error. -/
theorem convert_int_out_of_range_wraps :
    ¬ representable demoHost (demoHost.kind 2) 300 ∧
    convert demoHost (.IntV 300) 2 = .ok { typ := 2, data := .int 44 } :=
  ⟨by decide, rfl⟩

/-- C3 as stated fails: `bool` is not a nilable kind, yet `convert` of
`None` to `bool` succeeds with `false`. -/
theorem convert_none_bool_succeeds :
    isNilableKind (demoHost.kind 0) = false ∧
    convert demoHost .NoneV 0 = .ok { typ := 0, data := .bool false } :=
  ⟨rfl, rfl⟩

/-- C3, amended: `convert` of `None` to a type `T` succeeds if and only if
the kind of `T` is nilable or is `Bool`, the result then being the zero
value of `T`; for every other kind it returns the cannot-convert error. -/
theorem convert_none (H : Host) (T : TypeRef) :
    convert H .NoneV T =
      if isNilableKind (H.kind T) || H.kind T == .Bool then .ok (Zero H T)
      else .error (.cannotConvert "NoneType" T) := by
  have hb := H.tBool_kind
  unfold Host.kind at *
  cases hk : (H.info T).kind <;>
    simp [convert, isValue, convertPrimitive, Host.kind, hk, isNilableKind, cannotConvert,
      TypeName, Convert, sliceToArrayPtr, sliceToArray, converted, ValueOf, convertData, Zero,
      Truth, hb, isIntegerKind, isSignedKind,
      isUnsignedKind, isFloatKind, isComplexKind, zeroData_bool]

/-- C4 as stated fails: the script Int 3 is rejected by the float target
`float64`, and the script Int 2^63, representable in the target `uint64`,
is rejected by it. -/
theorem convert_int_rejected :
    convert demoHost (.IntV 3) 5 = .error (.cannotConvert "int" 5) ∧
    representable demoHost (demoHost.kind 4) (2 ^ 63) ∧
    convert demoHost (.IntV (2 ^ 63)) 4 = .error (.intOutOfRange (2 ^ 63)) :=
  ⟨rfl, by decide, rfl⟩

/-- C4, amended: for a target type `T` and a script value `v` that is not a
facade, if `T` is of kind bool, or `T` is of a float kind and `v` is a script
Float, or `T` is of an integer kind and `v` is a script Int representable in
`T` and in the host type `int`, or `T` is of kind string and `v` is a script
string, then `convert` succeeds and the type of the result is `T`. -/
theorem convert_primitive_total (H : Host) (v : SValue) (T : TypeRef)
    (hv : isValue v = false)
    (hc : H.kind T = .Bool ∨
      (isFloatKind (H.kind T) = true ∧ ∃ f, v = .FloatV f) ∨
      (isIntegerKind (H.kind T) = true ∧
        ∃ n, v = .IntV n ∧ representable H (H.kind T) n ∧ representable H .Int n) ∨
      (H.kind T = .String ∧ ∃ s, v = .StringV s)) :
    ∃ rv, convert H v T = .ok rv ∧ rv.typ = T := by
  rcases hc with hb | ⟨hf, f, rfl⟩ | ⟨hi, n, rfl, -, hn⟩ | ⟨hs, s, rfl⟩
  · rw [convert_of_not_isValue H v T hv]
    refine ⟨converted H (ValueOf H.tBool (.bool (Truth H v))) T, ?_, rfl⟩
    have hc := (Convert_primitive H (.bool (Truth H v)) T).1
    cases v <;> simp [convertPrimitive, hb, isNilableKind] <;> exact hc
  · rw [convert_of_not_isValue H (.FloatV f) T rfl]
    refine ⟨converted H (ValueOf H.tStarlarkFloat (.float f)) T, ?_, rfl⟩
    have hc := (Convert_primitive H (.float f) T).2.2.2.2
    cases hT : H.kind T <;> simp [hT, isFloatKind] at hf <;>
      simp [convertPrimitive, hT, isNilableKind, hc]
  · exact ⟨_, convert_int_to_integer H n T hi hn, rfl⟩
  · rw [convert_of_not_isValue H (.StringV s) T rfl]
    exact ⟨converted H (ValueOf H.tString (.str s)) T,
      by simp [convertPrimitive, hs, isNilableKind, (Convert_primitive H (.str s) T).2.2.2.1],
      rfl⟩

/-- C4, amended, at a concrete input: the script Int 7 into the target
`uint8`. -/
theorem convert_primitive_total_witness :
    ∃ rv, convert demoHost (.IntV 7) 3 = .ok rv ∧ rv.typ = 3 :=
  convert_primitive_total demoHost (.IntV 7) 3 rfl
    (Or.inr (Or.inr (Or.inl ⟨rfl, 7, rfl, by decide, by decide⟩)))

/-- The part of the round trip of C5 that holds: a detached value of an
unnamed type of kind bool, string or `Float64`, or of an integer kind with
a content representable in the host type `int`, is wrapped as a script
primitive that `convert` takes back to the same type and content. -/
theorem roundtrip_primitives (H : Host) (T : TypeRef) (hn : named H T = false) :
    (H.kind T = .Bool → ∀ b, convert H (.BoolV b) T = .ok { typ := T, data := .bool b } ∧
      wrap H (some { typ := T, data := .bool b }) = .ok (.BoolV b)) ∧
    (H.kind T = .String → ∀ s, convert H (.StringV s) T = .ok { typ := T, data := .str s } ∧
      wrap H (some { typ := T, data := .str s }) = .ok (.StringV s)) ∧
    (H.kind T = .Float64 → ∀ x, convert H (.FloatV x) T = .ok { typ := T, data := .float x } ∧
      wrap H (some { typ := T, data := .float x }) = .ok (.FloatV x)) ∧
    (isIntegerKind (H.kind T) = true → ∀ n, representable H (H.kind T) n →
      representable H .Int n →
      convert H (.IntV n) T = .ok { typ := T, data := .int n } ∧
      wrap H (some { typ := T, data := .int n }) = .ok (.IntV n)) := by
  have hb := H.tBool_kind
  have hs := H.tString_kind
  have hf := H.tStarlarkFloat_kind
  unfold Host.kind at hb hs hf
  refine ⟨fun hk b => ⟨?_, ?_⟩, fun hk s => ⟨?_, ?_⟩, fun hk x => ⟨?_, ?_⟩,
    fun hk n hr hi => ⟨?_, ?_⟩⟩
  all_goals try (have hk2 : (H.info T).kind = _ := hk)
  · rw [convert_of_not_isValue H (.BoolV b) T rfl]
    simp [convertPrimitive, hk2, isNilableKind, Convert, sliceToArrayPtr, sliceToArray, converted,
      ValueOf, convertData, Host.kind, hb,
      isIntegerKind, isSignedKind, isUnsignedKind, isFloatKind, isComplexKind, Truth]
  · simp [wrap, RVal.CanAddr, wrapKind, wrapSwitch, hk, hn, Data.getBool]
  · rw [convert_of_not_isValue H (.StringV s) T rfl]
    simp [convertPrimitive, hk2, isNilableKind, Convert, sliceToArrayPtr, sliceToArray,
      converted, ValueOf, convertData, Host.kind, hs,
      isIntegerKind, isSignedKind, isUnsignedKind, isFloatKind, isComplexKind]
  · simp [wrap, RVal.CanAddr, wrapKind, wrapSwitch, hk, hn, Data.getString]
  · rw [convert_of_not_isValue H (.FloatV x) T rfl]
    simp [convertPrimitive, hk2, isNilableKind, Convert, sliceToArrayPtr, sliceToArray,
      converted, ValueOf, convertData, Host.kind, hf,
      isIntegerKind, isSignedKind, isUnsignedKind, isFloatKind, isComplexKind, makeFloat,
      Data.getFloat]
  · simp [wrap, RVal.CanAddr, wrapKind, wrapSwitch, hk, hn, Data.getFloat]
  · rw [convert_int_to_integer H n T hk hi, makeInt_of_representable H _ n hk hr]
  · cases hT : H.kind T <;> simp [hT, isIntegerKind, isSignedKind, isUnsignedKind] at hk <;>
      simp [wrap, RVal.CanAddr, wrapKind, wrapSwitch, hT, hn, Data.getInt]

/-- C5, at the failing input: the detached `uint64` value 2^63 is wrapped as
the script Int 2^63, which `convert` rejects for the target `uint64` although
it is representable there: the round trip fails. -/
theorem roundtrip_uint64_fails :
    named demoHost 4 = false ∧ demoHost.kind 4 = .Uint64 ∧
    wrap demoHost (some { typ := 4, data := .int (2 ^ 63) }) = .ok (.IntV (2 ^ 63)) ∧
    representable demoHost .Uint64 (2 ^ 63) ∧
    convert demoHost (.IntV (2 ^ 63)) 4 = .error (.intOutOfRange (2 ^ 63)) :=
  ⟨rfl, rfl, rfl, by decide, rfl⟩

/-- The part of C6 that holds: for a facade `v` that wraps the native value
`rv` and a target type `T`, `convert` returns `rv` itself if the type of `rv`
is `T`; otherwise, if the type of `rv` is convertible to `T`, it has the
outcome of the host conversion of `rv`, which is a value of type `T` or a
panic, and is a value if `rv` is not a slice or is not shorter than the
array converted to; and otherwise it returns the cannot-convert error.  The
kind dispatch (truthiness, boxing, `None`) is not consulted. -/
theorem convert_facade (H : Host) (v : SValue) (rv : RVal) (T : TypeRef)
    (hr : Reflect H v = some rv) :
    convert H v T =
      (if rv.typ = T then .ok rv
       else if ConvertibleTo H rv.typ T then Convert H rv T
       else .error (.cannotConvert (TypeName H v) T)) ∧
    (∀ x, Convert H rv T = .ok x → x.typ = T) ∧
    (H.kind rv.typ ≠ .Slice → Convert H rv T = .ok (converted H rv T)) ∧
    ((H.info (H.info T).elem).len ≤ rv.data.sliceLen → (H.info T).len ≤ rv.data.sliceLen →
      Convert H rv T = .ok (converted H rv T)) := by
  refine ⟨?_, ?_, Convert_of_not_slice H rv T, ?_⟩
  · cases v <;> simp [Reflect] at hr
    all_goals first
      | (subst hr; simp [convert, isValue, Reflect, cannotConvert])
      | (rename_i t; cases t <;> simp at hr; subst hr;
         simp [convert, isValue, Reflect, cannotConvert])
  · intro x hx
    unfold Convert at hx
    split_ifs at hx
    simp only [Outcome.ok.injEq] at hx
    subst hx
    rfl
  · intro h1 h2
    simp [Convert, Nat.not_lt.mpr h1, Nat.not_lt.mpr h2]

/-- The three cases of `convert` on a facade, at concrete inputs: a pointer
facade converted to its own type is returned unchanged; the facade of the
`int` value 300 converted to `int8` is the host conversion, of type `int8`;
and a pointer facade is not converted to `int`. -/
theorem convert_facade_witness :
    convert demoHost (.goPtr { typ := 11, data := .ptr none }) 11 =
      .ok { typ := 11, data := .ptr none } ∧
    convert demoHost (.goNamedBasic { typ := 1, data := .int 300 }) 2 =
      .ok { typ := 2, data := .int 44 } ∧
    convert demoHost (.goPtr { typ := 11, data := .ptr none }) 1 =
      .error (.cannotConvert "go.ptr<*main.T>" 1) :=
  ⟨(convert_facade demoHost (.goPtr { typ := 11, data := .ptr none })
    { typ := 11, data := .ptr none } 11 rfl).1, rfl, rfl⟩

/-- C6, at the failing input: `s = ValueOf([]int{1})` is a facade
that wraps a native value of type `[]int`, which is not `*[2]int` and is
convertible to it by the rules of the host; yet `convert(s, *[2]int)`
returns neither the host conversion of the value nor an error: the panic of
`Value.Convert` on a slice shorter than the array escapes it.  The same
holds for the target `[2]int`. -/
theorem convert_short_slice_faults :
    Reflect demoHost (.goSlice
      { typ := 42, data := .slice (some { arr := { loc := 0 }, off := 0, len := 1, cap := 1 }) }) =
      some
        { typ := 42, data := .slice (some { arr := { loc := 0 }, off := 0, len := 1, cap := 1 }) } ∧
    ConvertibleTo demoHost 42 45 = true ∧
    convert demoHost (.goSlice
      { typ := 42, data := .slice (some { arr := { loc := 0 }, off := 0, len := 1, cap := 1 }) })
      45 =
      .fault "reflect: cannot convert slice with length 1 to pointer to array with length 2" ∧
    ConvertibleTo demoHost 42 43 = true ∧
    convert demoHost (.goSlice
      { typ := 42, data := .slice (some { arr := { loc := 0 }, off := 0, len := 1, cap := 1 }) })
      43 =
      .fault "reflect: cannot convert slice with length 1 to array with length 2" :=
  ⟨rfl, rfl, rfl, rfl, rfl⟩

/-- C7: for a script value that is not a facade and is not `None`, and a
target type of kind struct, array, channel, function, map, slice, pointer,
complex, unsafe pointer, or a non-empty interface, `convert` returns the
cannot-convert error: no value and no fault. -/
theorem convert_unsupported_kind (H : Host) (v : SValue) (T : TypeRef)
    (hv : isValue v = false) (hn : v ≠ .NoneV)
    (hk : H.kind T = .Struct ∨ H.kind T = .Array ∨ H.kind T = .Chan ∨ H.kind T = .Func ∨
      H.kind T = .Map ∨ H.kind T = .Slice ∨ H.kind T = .Ptr ∨ H.kind T = .Complex64 ∨
      H.kind T = .Complex128 ∨ H.kind T = .UnsafePointer ∨
      (H.kind T = .Interface ∧ (H.info T).methods ≠ [])) :
    convert H v T = .error (.cannotConvert (TypeName H v) T) := by
  rw [convert_of_not_isValue H v T hv]
  rcases hk with h | h | h | h | h | h | h | h | h | h | ⟨h, hm⟩
  on_goal 11 =>
    have he : T ≠ H.eface := fun e => hm (e ▸ H.eface_methods)
    cases v <;> simp [convertPrimitive, h, isNilableKind, cannotConvert, he] at hn ⊢
  all_goals cases v <;> simp [convertPrimitive, h, isNilableKind, cannotConvert] at hn ⊢

/-- C7, at concrete inputs: a script string into the struct type `main.T`
and into the non-empty interface `reflect.Type`. -/
theorem convert_unsupported_kind_witness :
    convert demoHost (.StringV "a") 10 = .error (.cannotConvert "string" 10) ∧
    convert demoHost (.StringV "a") 13 = .error (.cannotConvert "string" 13) :=
  ⟨convert_unsupported_kind demoHost (.StringV "a") 10 rfl (by simp) (Or.inl rfl),
   convert_unsupported_kind demoHost (.StringV "a") 13 rfl (by simp)
    (Or.inr (Or.inr (Or.inr (Or.inr (Or.inr (Or.inr (Or.inr (Or.inr (Or.inr (Or.inr
      ⟨rfl, by simp [demoHost, demoInfo]⟩))))))))))⟩

end Stargo

/-! ## The facade wrapper and attribute resolution: claims C8 to C10 -/

namespace Stargo

/-- The only fault of the kind switch of `wrap` is the one of
`Value.Interface` on a read-only value; otherwise it returns a facade. -/
theorem wrapSwitch_cases (H : Host) (v : RVal) :
    (∃ f, wrapSwitch H v = .ok f) ∨
    (v.isRO = true ∧ wrapSwitch H v =
      .fault "reflect.Value.Interface: cannot return value obtained from unexported field or method") := by
  unfold wrapSwitch RVal.isRO
  cases H.kind v.typ <;> simp only [] <;> (try split_ifs) <;> (try split) <;> simp_all

/-- The same for `wrap` after its check of `CanAddr`. -/
theorem wrapKind_cases (H : Host) (sticky embed : Bool) (t : TypeRef) (d : Data) :
    (∃ f, wrapKind H sticky embed t d = .ok f) ∨
    ((sticky || embed) = true ∧ wrapKind H sticky embed t d =
      .fault "reflect.Value.Interface: cannot return value obtained from unexported field or method") := by
  induction sticky, embed, t, d using wrapKind.induct H with
  | case1 s e typ t d hk ih =>
    rw [wrapKind, if_pos hk]
    simpa using ih
  | case2 s e typ t d hk =>
    rw [wrapKind, if_neg hk]
    simpa [RVal.isRO] using wrapSwitch_cases H { typ := typ, data := .iface t d, stickyRO := s, embedRO := e }
  | case3 s e typ d hd =>
    rw [wrapKind]
    · simpa [RVal.isRO] using wrapSwitch_cases H { typ := typ, data := d, stickyRO := s, embedRO := e }
    · exact hd

/-- The parts of C8 that hold: `wrap` of a valid value raises the fault
`addr` if and only if the value is addressable; it never raises the fault
`unknown kind`; and it returns a facade for every valid value that is
neither addressable nor read-only. -/
theorem wrap_valid (H : Host) (v : RVal) :
    (wrap H (some v) = .fault "addr" ↔ v.CanAddr = true) ∧
    wrap H (some v) ≠ .fault "unknown kind: invalid" ∧
    (v.CanAddr = false → v.isRO = false → ∃ f, wrap H (some v) = .ok f) := by
  unfold wrap
  by_cases ha : v.CanAddr = true
  · simp [ha]
  · simp only [ha, Bool.false_eq_true, if_false, iff_false]
    rcases wrapKind_cases H v.stickyRO v.embedRO v.typ v.data with ⟨f, hf⟩ | ⟨hro, hf⟩
    · simp [hf]
    · rw [hf]
      refine ⟨by simp, by simp, fun _ h => ?_⟩
      simp [RVal.isRO] at h hro
      simp [h] at hro

/-- The recursion of `wrap` on a value of kind `Interface` ends after one
level: a nil interface is wrapped as `None`, and a non-nil one, whose
dynamic type is not of kind `Interface`, as its dynamic value is by the kind
switch. -/
theorem wrap_interface (H : Host) (v : RVal) (ha : v.CanAddr = false)
    (hk : H.kind v.typ = .Interface) :
    (v.data = .nilIface → wrap H (some v) = .ok .NoneV) ∧
    (∀ t e, v.data = .iface t e → H.kind t ≠ .Interface →
      wrap H (some v) = wrapSwitch H { typ := t, data := e, stickyRO := v.isRO }) := by
  constructor
  · intro hd
    simp [wrap, ha, hd, wrapKind, wrapSwitch, hk]
  · intro t e hd ht
    simp only [wrap, ha, Bool.false_eq_true, if_false, hd]
    rw [wrapKind, if_pos hk]
    cases e <;> simp [wrapKind, ht, RVal.isRO]

/-- C8, at the failing input: the field `t` of a detached struct
`W{t: reflect.TypeOf(0)}` is a valid value that is not addressable, yet
`wrap` of it raises the fault of `Value.Interface` and returns no facade. -/
theorem wrap_unexported_type_faults :
    Field demoHost { typ := 15, data := .struct [.iface 8 (.rtypePtr (some 1))] } 0 =
      .ok { typ := 13, data := .iface 8 (.rtypePtr (some 1)), stickyRO := true } ∧
    RVal.CanAddr { typ := 13, data := .iface 8 (.rtypePtr (some 1)), stickyRO := true } = false ∧
    wrap demoHost (some { typ := 13, data := .iface 8 (.rtypePtr (some 1)), stickyRO := true }) =
      .fault "reflect.Value.Interface: cannot return value obtained from unexported field or method" :=
  ⟨rfl, rfl, rfl⟩

/-- C9, at the failing input: on the struct facade of `T{X: 3, y: 5}` the
name `y` denotes an unexported field and no method; `AttrAlias` fails with
the access-to-unexported error, yet `Attr` returns the value 5 of the
field. -/
theorem goStruct_Attr_returns_unexported :
    (demoHost.info 10).fields[1]? = some { Name := "y", Exported := false, Typ := 1 } ∧
    (demoHost.info 10).methods.lookup "y" = none ∧
    goStruct.AttrAlias demoHost {} { typ := 10, data := .struct [.int 3, .int 5] } "y" =
      .error (.unexportedField "y") ∧
    goStruct.Attr demoHost {} { typ := 10, data := .struct [.int 3, .int 5] } "y" =
      .ok (some (.IntV 5)) :=
  ⟨rfl, rfl, rfl, rfl⟩

/-- On a pointer facade, both resolution modes refuse a field that is
read-only (unexported). -/
theorem goPtr_unexported (H : Host) (h : Heap) (v e f : RVal) (name : String)
    (hm : MethodByName H v name = .ok none) (hk : H.kind (H.info v.typ).elem = .Struct)
    (hnil : v.data.IsNil = false) (he : Elem H h v = some e)
    (hf : FieldByName H h e name = .ok (some f)) (hro : f.CanInterface = false) :
    goPtr.Attr H h v name = .error (.unexportedField name) ∧
    goPtr.AttrAlias H h v name = .error (.unexportedField name) := by
  simp [goPtr.Attr, goPtr.AttrAlias, hm, hk, hnil, he, hf, hro, Outcome.bind]

/-- C10 as stated fails: on a nil pointer to `int`, whose type has no
methods, `Attr` and `AttrAlias` return the absent result and no error. -/
theorem goPtr_nil_not_struct_absent :
    Data.IsNil (.ptr none) = true ∧ (demoHost.info 12).methods = [] ∧
    goPtr.Attr demoHost {} { typ := 12, data := .ptr none } "x" = .ok none ∧
    goPtr.AttrAlias demoHost {} { typ := 12, data := .ptr none } "x" = .ok none :=
  ⟨rfl, rfl, rfl, rfl⟩

/-- C10, amended: on a pointer facade whose pointer is nil, for a name that
is not a method of the pointer type, `Attr` and `AttrAlias` fail with the
nil-dereference error if the pointee type is a struct and return the absent
result otherwise; `SetField` fails with the nil-dereference error whatever
the pointee type, and leaves the memory unchanged. -/
theorem goPtr_nil (H : Host) (h : Heap) (v : RVal) (name : String) (val : SValue)
    (hnil : v.data.IsNil = true) (hm : (H.info v.typ).methods.lookup name = none) :
    goPtr.Attr H h v name =
      (if H.kind (H.info v.typ).elem = .Struct then .error .nilDereference else .ok none) ∧
    goPtr.AttrAlias H h v name =
      (if H.kind (H.info v.typ).elem = .Struct then .error .nilDereference else .ok none) ∧
    goPtr.SetField H h v name val = (.error .nilDereference, h) := by
  have hmb : MethodByName H v name = .ok none := by
    unfold MethodByName
    split <;> simp [hm]
  refine ⟨?_, ?_, ?_⟩
  · simp [goPtr.Attr, hmb, Outcome.bind, hnil]
  · simp [goPtr.AttrAlias, hmb, Outcome.bind, hnil]
  · simp [goPtr.SetField, hnil]

/-- C10, amended, at a concrete input: a nil pointer to the struct `T`. -/
theorem goPtr_nil_witness :
    goPtr.Attr demoHost {} { typ := 11, data := .ptr none } "X" = .error .nilDereference ∧
    goPtr.AttrAlias demoHost {} { typ := 11, data := .ptr none } "X" = .error .nilDereference ∧
    goPtr.SetField demoHost {} { typ := 11, data := .ptr none } "X" (.IntV 1) =
      (.error .nilDereference, {}) :=
  goPtr_nil demoHost {} { typ := 11, data := .ptr none } "X" (.IntV 1) rfl rfl

end Stargo

/-! ## Lemmas on memory -/

namespace Stargo

/-- The parent of a child is a struct or an array. -/
theorem Data.child_some (d c : Data) (i : Nat) (hc : d.child i = some c) :
    ∃ xs, (d = .struct xs ∨ d = .array xs) ∧ xs[i]? = some c := by
  cases d <;> simp [Data.child] at hc
  · exact ⟨_, Or.inl rfl, hc⟩
  · exact ⟨_, Or.inr rfl, hc⟩

/-- A store at a child of the content at a path: the content at the path
afterwards has the stored child, and its other children as before. -/
theorem Data.put_child (x : Data) (i : Nat) (p : List Nat) :
    ∀ (d e c : Data), d.get p = some e → e.child i = some c →
      ∃ d2 e2, d.put (p ++ [i]) x = some d2 ∧ d2.get p = some e2 ∧
        e2.child i = some x ∧ ∀ j, j ≠ i → e2.child j = e.child j := by
  induction p with
  | nil =>
    intro d e c hg hc
    simp only [Data.get, Option.some.injEq] at hg
    subst hg
    obtain ⟨xs, hd, hx⟩ := Data.child_some d c i hc
    have hi : i < xs.length := by
      by_contra hlt
      rw [List.getElem?_eq_none (by omega)] at hx
      exact Option.noConfusion hx
    rcases hd with rfl | rfl
    · refine ⟨.struct (xs.set i x), .struct (xs.set i x), ?_, rfl, ?_, ?_⟩
      · simp [Data.put, Data.child, hx]
      · simp [Data.child, hi]
      · intro j hj
        simp [Data.child, List.getElem?_set_ne (Ne.symm hj)]
    · refine ⟨.array (xs.set i x), .array (xs.set i x), ?_, rfl, ?_, ?_⟩
      · simp [Data.put, Data.child, hx]
      · simp [Data.child, hi]
      · intro j hj
        simp [Data.child, List.getElem?_set_ne (Ne.symm hj)]
  | cons k ps ih =>
    intro d e c hg hc
    cases hk : d.child k with
    | none => simp [Data.get, hk] at hg
    | some c0 =>
      simp only [Data.get, hk] at hg
      obtain ⟨c2, e2, hput, hget, hx, hfr⟩ := ih c0 e c hg hc
      obtain ⟨xs, hd, hxk⟩ := Data.child_some d c0 k hk
      have hkl : k < xs.length := by
        by_contra hlt
        rw [List.getElem?_eq_none (by omega)] at hxk
        exact Option.noConfusion hxk
      rcases hd with rfl | rfl
      · refine ⟨.struct (xs.set k c2), e2, ?_, ?_, hx, hfr⟩
        · simp [Data.put, Data.child, hxk, hput]
        · simp [Data.get, Data.child, hkl, hget]
      · refine ⟨.array (xs.set k c2), e2, ?_, ?_, hx, hfr⟩
        · simp [Data.put, Data.child, hxk, hput]
        · simp [Data.get, Data.child, hkl, hget]

/-- A store to a child of the content of a place: afterwards the place holds
a content with the stored child, and its other children as before. -/
theorem Heap.write_child (h : Heap) (pl : Place) (i : Nat) (x e c : Data)
    (hr : h.read pl = some e) (hc : e.child i = some c) :
    ∃ h2 e2, h.write { pl with path := pl.path ++ [i] } x = some h2 ∧
      h2.read pl = some e2 ∧ e2.child i = some x ∧ ∀ j, j ≠ i → e2.child j = e.child j := by
  unfold Heap.read at hr
  cases hcell : h.cells[pl.loc]? with
  | none => simp [hcell] at hr
  | some root =>
    simp only [hcell] at hr
    obtain ⟨d2, e2, hput, hget, hx, hfr⟩ := Data.put_child x i pl.path root e c hr hc
    have hl : pl.loc < h.cells.length := by
      by_contra hlt
      rw [List.getElem?_eq_none (by omega)] at hcell
      exact Option.noConfusion hcell
    refine ⟨{ h with cells := h.cells.set pl.loc d2 }, e2, ?_, ?_, hx, hfr⟩
    · simp [Heap.write, hcell, hput]
    · simp [Heap.read, hl, hget]

end Stargo

/-! ## Lemmas on the fields of a pointer facade -/

namespace Stargo

/-- The value that a pointer facade to a struct resolves the name of a
declared field to: the field of the variable pointed to, addressable. -/
theorem goPtr_direct_field (H : Host) (h : Heap) (v : RVal) (pl : Place) (name : String)
    (i : Nat) (fd : StructField) (d c : Data)
    (hv : v.data = .ptr (some pl)) (hd : h.read pl = some d)
    (hk : H.kind (H.info v.typ).elem = .Struct)
    (hidx : typeFieldByName H (H.info v.typ).elem name = some [i])
    (hfd : (H.info (H.info v.typ).elem).fields[i]? = some fd)
    (hc : d.child i = some c) :
    ∃ e, Elem H h v = some e ∧
      FieldByName H h e name = .ok (some
        { typ := fd.Typ, data := c, place := some { pl with path := pl.path ++ [i] },
          stickyRO := v.stickyRO || (!fd.Exported && !fd.Anonymous),
          embedRO := !fd.Exported && fd.Anonymous }) := by
  refine ⟨{ typ := (H.info v.typ).elem, data := d, place := some pl, stickyRO := v.stickyRO,
            embedRO := v.embedRO }, by simp [Elem, hv, hd], ?_⟩
  simp [FieldByName, hk, hidx, FieldByIndex, Field, hfd, hc, fieldSteps, Outcome.bind,
    Outcome.map]

/-- A name that is not in the method set of the type of a pointer is not
resolved to a method. -/
theorem MethodByName_none (H : Host) (v : RVal) (name : String)
    (hm : (H.info v.typ).methods.lookup name = none) : MethodByName H v name = .ok none := by
  unfold MethodByName
  split <;> simp [hm]

/-- The detached copy of an addressable value that is not read-only and not
of an interface type. -/
theorem copyVal_exported (H : Host) (t : TypeRef) (d : Data) (pl : Place)
    (hni : H.kind t ≠ .Interface) :
    copyVal H { typ := t, data := d, place := some pl } = .ok (some (ValueOf t d)) := by
  unfold copyVal
  simp only [RVal.CanAddr, RVal.CanInterface, RVal.isRO, Option.isSome_some,
    Bool.not_true, Bool.false_eq_true, if_false, Bool.or_self, Bool.not_false, if_true]

/-- The parts of C12 and C13 that hold, for a declared exported field, not
of an interface type, of the struct that a pointer facade points to: `Attr`
returns the facade of a detached value with the content of the field;
`AttrAlias` returns the facade of a pointer to the place of the field; and
after a store to that place, `Attr` returns the facade of the stored
content. -/
theorem goPtr_copy_and_alias (H : Host) (h : Heap) (v : RVal) (pl : Place) (name : String)
    (i : Nat) (fd : StructField) (d c : Data)
    (hv : v.data = .ptr (some pl)) (hro : v.isRO = false) (hd : h.read pl = some d)
    (hm : (H.info v.typ).methods.lookup name = none)
    (hk : H.kind (H.info v.typ).elem = .Struct)
    (hidx : typeFieldByName H (H.info v.typ).elem name = some [i])
    (hfd : (H.info (H.info v.typ).elem).fields[i]? = some fd)
    (hexp : fd.Exported = true) (hni : H.kind fd.Typ ≠ .Interface)
    (hc : d.child i = some c) :
    goPtr.Attr H h v name = (wrap H (some (ValueOf fd.Typ c))).map some ∧
    goPtr.AttrAlias H h v name =
      (wrap H (some { typ := H.ptrTo fd.Typ,
                      data := .ptr (some { pl with path := pl.path ++ [i] }) })).map some ∧
    ∀ x, ∃ h2, h.write { pl with path := pl.path ++ [i] } x = some h2 ∧
      goPtr.Attr H h2 v name = (wrap H (some (ValueOf fd.Typ x))).map some := by
  have hmb := MethodByName_none H v name hm
  have hs : v.stickyRO = false ∧ v.embedRO = false := by
    simpa [RVal.isRO] using hro
  have attr : ∀ (h1 : Heap) (d1 c1 : Data), h1.read pl = some d1 → d1.child i = some c1 →
      goPtr.Attr H h1 v name = (wrap H (some (ValueOf fd.Typ c1))).map some := by
    intro h1 d1 c1 hd1 hc1
    obtain ⟨e, he, hf⟩ := goPtr_direct_field H h1 v pl name i fd d1 c1 hv hd1 hk hidx hfd hc1
    simp [goPtr.Attr, hmb, Outcome.bind, hk, hv, Data.IsNil, he, hf, RVal.CanInterface,
      RVal.isRO, hs.1, hexp, copyVal_exported H fd.Typ c1 _ hni, Outcome.map]
  refine ⟨attr h d c hd hc, ?_, fun x => ?_⟩
  · obtain ⟨e, he, hf⟩ := goPtr_direct_field H h v pl name i fd d c hv hd hk hidx hfd hc
    simp [goPtr.AttrAlias, hmb, Outcome.bind, hk, hv, Data.IsNil, he, hf, RVal.CanInterface,
      RVal.isRO, hs.1, hexp, Addr, Outcome.map]
  · obtain ⟨h2, e2, hw, hr2, hx, -⟩ := Heap.write_child h pl i x d c hd hc
    exact ⟨h2, hw, attr h2 e2 x hr2 hx⟩

/-- The part of C13 that holds, for a declared exported field of the struct
that a pointer facade points to and a script value that converts to a value
that is not read-only: `SetField` returns no error, the field holds the
converted content afterwards, and the other fields of the struct are
unchanged; if the conversion fails, `SetField` returns its error and the
memory is unchanged. -/
theorem goPtr_SetField_direct (H : Host) (h : Heap) (v : RVal) (pl : Place) (name : String)
    (i : Nat) (fd : StructField) (d c : Data) (val : SValue)
    (hv : v.data = .ptr (some pl)) (hro : v.isRO = false) (hd : h.read pl = some d)
    (hk : H.kind (H.info v.typ).elem = .Struct)
    (hidx : typeFieldByName H (H.info v.typ).elem name = some [i])
    (hfd : (H.info (H.info v.typ).elem).fields[i]? = some fd)
    (hexp : fd.Exported = true) (hc : d.child i = some c) :
    (∀ xv xd, convert H val fd.Typ = .ok xv → xv.isRO = false →
      assignTo H xv fd.Typ = .ok xd →
      ∃ h2 d2, goPtr.SetField H h v name val = (.ok (), h2) ∧ h2.read pl = some d2 ∧
        d2.child i = some xd ∧ ∀ j, j ≠ i → d2.child j = d.child j) ∧
    (∀ e, convert H val fd.Typ = .error e → goPtr.SetField H h v name val = (.error e, h)) := by
  have hs : v.stickyRO = false ∧ v.embedRO = false := by
    simpa [RVal.isRO] using hro
  obtain ⟨e, he, hf⟩ := goPtr_direct_field H h v pl name i fd d c hv hd hk hidx hfd hc
  have hek : H.kind e.typ = .Struct := by
    simp [Elem, hv, hd] at he
    subst he
    exact hk
  constructor
  · intro xv xd hconv hxro has
    obtain ⟨h2, d2, hw, hr2, hx, hfr⟩ := Heap.write_child h pl i xd d c hd hc
    refine ⟨h2, d2, ?_, hr2, hx, hfr⟩
    simp [goPtr.SetField, hv, Data.IsNil, he, hek, hf, RVal.CanSet, RVal.CanAddr, RVal.isRO,
      hs.1, hexp, hconv, Set, has, hw]
    simpa [RVal.isRO] using hxro
  · intro err hconv
    simp [goPtr.SetField, hv, Data.IsNil, he, hek, hf, RVal.CanSet, RVal.CanAddr, RVal.isRO,
      hs.1, hexp, hconv]

end Stargo

/-! ## Attribute names, copies and aliases, assignment: claims C11 to C14 -/

namespace Stargo

/-- C11, at the failing input: for `Outer{Inner{A: 1}, B: 2}` with
`type Outer struct { Inner; B int }`, the promoted field name `A` resolves,
`Attr` returning the facade of 1 on the struct facade and on a pointer
facade, yet `AttrNames` lists only the declared fields `B` and `Inner`. -/
theorem AttrNames_omits_promoted_field :
    goStruct.Attr demoHost {} { typ := 24, data := .struct [.struct [.int 1], .int 2] } "A" =
      .ok (some (.IntV 1)) ∧
    goStruct.AttrNames demoHost { typ := 24, data := .struct [.struct [.int 1], .int 2] } =
      ["B", "Inner"] ∧
    goPtr.Attr demoHost { cells := [.struct [.struct [.int 1], .int 2]] }
      { typ := 25, data := .ptr (some { loc := 0 }) } "A" = .ok (some (.IntV 1)) ∧
    goPtr.AttrNames demoHost { typ := 25, data := .ptr (some { loc := 0 }) } = ["B", "Inner"] :=
  ⟨rfl, rfl, rfl, rfl⟩

/-- C12, at the failing input: for a pointer facade to `S{E: nil}` with
`type S struct { E error }`, the name `E` denotes an exported field and no
method; `AttrAlias` returns a pointer facade to the storage of the field,
yet `Attr` raises the fault `unknown kind` of `wrap` and returns no
facade. -/
theorem goPtr_Attr_nil_interface_field_faults :
    (demoHost.info 31).fields[0]? = some { Name := "E", Exported := true, Typ := 30 } ∧
    (demoHost.info 32).methods.lookup "E" = none ∧
    goPtr.AttrAlias demoHost { cells := [.struct [.nilIface]] }
      { typ := 32, data := .ptr (some { loc := 0 }) } "E" =
      .ok (some (.goPtr { typ := 40, data := .ptr (some { loc := 0, path := [0] }) })) ∧
    goPtr.Attr demoHost { cells := [.struct [.nilIface]] }
      { typ := 32, data := .ptr (some { loc := 0 }) } "E" = .fault "unknown kind: invalid" :=
  ⟨rfl, rfl, rfl, rfl⟩

/-- C13, at two failing inputs.  On a pointer facade to `S{E: err}`,
`convert` of `None` to the type `error` of the field `E` succeeds and
`SetField` returns no error, yet the subsequent `Attr` raises a fault
instead of yielding the converted value.  On a pointer facade to
`OuterP{nil}` with `type OuterP struct { *Inner }`, `convert` of 1 to the
type `int` of the promoted field `A` succeeds, yet `SetField` raises a
fault. -/
theorem goPtr_SetField_faults :
    convert demoHost .NoneV 30 = .ok { typ := 30, data := .nilIface } ∧
    goPtr.SetField demoHost { cells := [.struct [.iface 6 (.str "x")]] }
      { typ := 32, data := .ptr (some { loc := 0 }) } "E" .NoneV =
      (.ok (), { cells := [.struct [.nilIface]] }) ∧
    goPtr.Attr demoHost { cells := [.struct [.nilIface]] }
      { typ := 32, data := .ptr (some { loc := 0 }) } "E" = .fault "unknown kind: invalid" ∧
    typeFieldByName demoHost 38 "A" = some [0, 0] ∧
    convert demoHost (.IntV 1) 1 = .ok { typ := 1, data := .int 1 } ∧
    goPtr.SetField demoHost { cells := [.struct [.ptr none]] }
      { typ := 39, data := .ptr (some { loc := 0 }) } "A" (.IntV 1) =
      (.fault "reflect: indirection through nil pointer to embedded struct",
        { cells := [.struct [.ptr none]] }) :=
  ⟨rfl, rfl, rfl, rfl, rfl, rfl⟩

/-- C14 as stated fails: the struct facade that the call of the `Type`
facade of `Point` returns refuses `SetField("X", 3)` with the cannot-set
error. -/
theorem Point_SetField_refused :
    goType.CallInternal demoHost (.ptr (some 20)) [] [] =
      .ok (.goStruct { typ := 20, data := .struct [.int 0, .int 0] }) ∧
    goStruct.SetField demoHost {} { typ := 20, data := .struct [.int 0, .int 0] } "X" (.IntV 3) =
      (.error (.cannotSetStructField "X"), {}) :=
  ⟨rfl, rfl⟩

/-- C14, amended: for `type Point struct { X, Y int }` with the
value-receiver method `Sum`, the call of the `Type` facade with no arguments
yields a struct facade `p` of the zero `Point`, which is not addressable;
`SetField("X", 3)` and `SetField("Y", 4)` on `p` both return the cannot-set
error and change nothing; and the call of the function that `p.Attr("Sum")`
returns yields the script integer 0. -/
theorem Point_end_to_end :
    goType.CallInternal demoHost (.ptr (some 20)) [] [] =
      .ok (.goStruct { typ := 20, data := .struct [.int 0, .int 0] }) ∧
    RVal.CanAddr { typ := 20, data := .struct [.int 0, .int 0] } = false ∧
    goStruct.SetField demoHost {} { typ := 20, data := .struct [.int 0, .int 0] } "X" (.IntV 3) =
      (.error (.cannotSetStructField "X"), {}) ∧
    goStruct.SetField demoHost {} { typ := 20, data := .struct [.int 0, .int 0] } "Y" (.IntV 4) =
      (.error (.cannotSetStructField "Y"), {}) ∧
    goStruct.Attr demoHost {} { typ := 20, data := .struct [.int 0, .int 0] } "Sum" =
      .ok (some (.goFunc { typ := 22, data := .methodVal 20 (.struct [.int 0, .int 0]) "Sum" })) ∧
    goFunc.CallInternal demoHost {}
      { typ := 22, data := .methodVal 20 (.struct [.int 0, .int 0]) "Sum" } [] [] =
      (.ok (.IntV 0), {}) :=
  ⟨rfl, rfl, rfl, rfl, rfl, rfl⟩

/-- The end-to-end scenario of C14 through a pointer: on a pointer facade
to a variable holding the zero `Point`, `SetField("X", 3)` and
`SetField("Y", 4)` succeed, and the call of the method `Sum` yields 7. -/
theorem Point_through_pointer :
    goPtr.SetField demoHost { cells := [.struct [.int 0, .int 0]] }
      { typ := 21, data := .ptr (some { loc := 0 }) } "X" (.IntV 3) =
      (.ok (), { cells := [.struct [.int 3, .int 0]] }) ∧
    goPtr.SetField demoHost { cells := [.struct [.int 3, .int 0]] }
      { typ := 21, data := .ptr (some { loc := 0 }) } "Y" (.IntV 4) =
      (.ok (), { cells := [.struct [.int 3, .int 4]] }) ∧
    goPtr.Attr demoHost { cells := [.struct [.int 3, .int 4]] }
      { typ := 21, data := .ptr (some { loc := 0 }) } "Sum" =
      .ok (some (.goFunc { typ := 22, data := .methodVal 21 (.ptr (some { loc := 0 })) "Sum" })) ∧
    goFunc.CallInternal demoHost { cells := [.struct [.int 3, .int 4]] }
      { typ := 22, data := .methodVal 21 (.ptr (some { loc := 0 })) "Sum" } [] [] =
      (.ok (.IntV 7), { cells := [.struct [.int 3, .int 4]] }) :=
  ⟨rfl, rfl, rfl, rfl⟩

end Stargo

/-! ## Maps and channels: claims C15 to C17 -/

namespace Stargo

/-- C15 as stated fails: on a nil `map[string]int`, `SetKey` of the key 1,
which does not convert to `string`, returns the invalid-key conversion error
and not the nil-map error. -/
theorem goMap_SetKey_nil_conversion_error :
    Data.IsNil (.map none) = true ∧
    goMap.SetKey demoHost {} { typ := 26, data := .map none } (.IntV 1) (.IntV 1) =
      (.error (.invalidMapKey (.cannotConvert "int" 6)), {}) :=
  ⟨rfl, rfl⟩

/-- C15, amended: on a map facade whose map is nil, `SetKey` fails with the
nil-map error for every key and value that both convert; if the key does
not convert it returns the invalid-key error, and if the key converts and
the value does not, the invalid-element error; in every case the memory is
unchanged. -/
theorem goMap_SetKey_nil (H : Host) (h : Heap) (m : RVal) (k v : SValue)
    (hnil : m.data.IsNil = true) :
    (∀ kv vv, convert H k (H.info m.typ).key = .ok kv →
      convert H v (H.info m.typ).elem = .ok vv →
      goMap.SetKey H h m k v = (.error .nilMapAssignment, h)) ∧
    (∀ e, convert H k (H.info m.typ).key = .error e →
      goMap.SetKey H h m k v = (.error (.invalidMapKey e), h)) ∧
    (∀ kv e, convert H k (H.info m.typ).key = .ok kv →
      convert H v (H.info m.typ).elem = .error e →
      goMap.SetKey H h m k v = (.error (.invalidMapElement e), h)) ∧
    (goMap.SetKey H h m k v).2 = h := by
  refine ⟨fun kv vv hk hv => ?_, fun e hk => ?_, fun kv e hk hv => ?_, ?_⟩
  · simp [goMap.SetKey, hk, hv, hnil]
  · simp [goMap.SetKey, hk]
  · simp [goMap.SetKey, hk, hv]
  · cases hk : convert H k (H.info m.typ).key <;>
      cases hv : convert H v (H.info m.typ).elem <;> simp [goMap.SetKey, hk, hv, hnil]

/-- C15, amended, at a concrete input: a nil `map[string]int`, the key
`"a"` and the value 1. -/
theorem goMap_SetKey_nil_witness :
    goMap.SetKey demoHost {} { typ := 26, data := .map none } (.StringV "a") (.IntV 1) =
      (.error .nilMapAssignment, {}) :=
  (goMap_SetKey_nil demoHost {} { typ := 26, data := .map none } (.StringV "a") (.IntV 1) rfl).1
    { typ := 6, data := .str "a" } { typ := 1, data := .int 1 } rfl rfl

/-- After `mapassign`, the keys equal to the assigned key are the assigned
key alone, if the map held at most one such key. -/
theorem mapAssign_key_once (k v : Data) (hr : keyEq k k = true) (es : List (Data × Data))
    (hu : (es.filter (fun e => keyEq k e.1)).length ≤ 1) :
    ((mapAssign k v es).map (fun e => e.1)).filter (fun x => keyEq k x) = [k] := by
  induction es with
  | nil => simp [mapAssign, hr]
  | cons e es ih =>
    by_cases he : keyEq k e.1 = true
    · simp only [mapAssign, he, if_true, List.map_cons, List.filter_cons, hr]
      simp only [List.filter_cons, he, if_true, List.length_cons] at hu
      have hnil : es.filter (fun e => keyEq k e.1) = [] := by
        apply List.eq_nil_of_length_eq_zero
        omega
      have : (es.map (fun e => e.1)).filter (fun x => keyEq k x) = [] := by
        rw [List.filter_map]
        simp only [List.map_eq_nil_iff]
        exact hnil
      rw [this]
    · simp only [mapAssign, he, Bool.false_eq_true, if_false, List.map_cons, List.filter_cons]
      simp only [List.filter_cons, he, Bool.false_eq_true, if_false] at hu
      exact ih hu

/-- After `mapassign`, the keys that differ from the assigned key are those
of before, in the same order. -/
theorem mapAssign_other_keys (k v : Data) (hr : keyEq k k = true) (es : List (Data × Data)) :
    ((mapAssign k v es).map (fun e => e.1)).filter (fun x => !keyEq k x) =
      (es.map (fun e => e.1)).filter (fun x => !keyEq k x) := by
  induction es with
  | nil => simp [mapAssign, hr]
  | cons e es ih =>
    by_cases he : keyEq k e.1 = true
    · simp [mapAssign, he, hr]
    · simp [mapAssign, he, ih]

/-- The entries of a map after a store to it. -/
theorem mapEntries_set (h : Heap) (m : RVal) (i : Nat) (es es2 : List (Data × Data))
    (hm : m.data = .map (some i)) (hes : h.maps[i]? = some es) :
    mapEntries { h with maps := h.maps.set i es2 } m = es2 := by
  have hi : i < h.maps.length := by
    by_contra hc
    rw [List.getElem?_eq_none (by omega)] at hes
    exact Option.noConfusion hes
  simp [mapEntries, hm, hi]

/-- C16 as stated fails: on a `map[float64]int` that holds the key NaN,
`SetKey` of the script Float NaN succeeds, and afterwards the iteration
yields the converted key twice. -/
theorem goMap_SetKey_NaN_twice :
    goMap.SetKey demoHost { maps := [[(.float ⟨0x7FF8000000000000⟩, .int 1)]] }
      { typ := 27, data := .map (some 0) } (.FloatV ⟨0x7FF8000000000000⟩) (.IntV 2) =
      (.ok (), { maps := [[(.float ⟨0x7FF8000000000000⟩, .int 1),
                           (.float ⟨0x7FF8000000000000⟩, .int 2)]] }) ∧
    goMap.Iterate demoHost
      { maps := [[(.float ⟨0x7FF8000000000000⟩, .int 1), (.float ⟨0x7FF8000000000000⟩, .int 2)]] }
      { typ := 27, data := .map (some 0) } =
      .ok [.FloatV ⟨0x7FF8000000000000⟩, .FloatV ⟨0x7FF8000000000000⟩] :=
  ⟨rfl, rfl⟩

/-- C16, amended: for a map facade `m` whose map is not nil and holds at
most one key equal to the converted key, and a script key `k` and value `v`
that convert to values that are not read-only, the converted key being
hashable and equal to itself (no NaN), `SetKey(k, v)` returns no error, and
afterwards the keys that the iteration visits are, in some order, the
converted key exactly once and the keys of before that differ from it;
`Len` is their number; the iteration yields the facades of these keys, and
no value. -/
theorem goMap_SetKey_then_iterate (H : Host) (h : Heap) (m : RVal) (k v : SValue)
    (kv vv : RVal) (kd vd : Data) (i : Nat) (es : List (Data × Data))
    (hm : m.data = .map (some i)) (hes : h.maps[i]? = some es)
    (hk : convert H k (H.info m.typ).key = .ok kv)
    (hv : convert H v (H.info m.typ).elem = .ok vv)
    (hro : m.isRO = false ∧ kv.isRO = false ∧ vv.isRO = false)
    (hak : assignTo H kv (H.info m.typ).key = .ok kd)
    (hav : assignTo H vv (H.info m.typ).elem = .ok vd)
    (hh : hashable kd = true) (hr : keyEq kd kd = true)
    (hu : (es.filter (fun e => keyEq kd e.1)).length ≤ 1) :
    ∃ h2, goMap.SetKey H h m k v = (.ok (), h2) ∧
      ((iterKeys H h2 m).map (fun x => x.data)).filter (fun x => keyEq kd x) = [kd] ∧
      (((iterKeys H h2 m).map (fun x => x.data)).filter (fun x => !keyEq kd x)).Perm
        ((es.map (fun e => e.1)).filter (fun x => !keyEq kd x)) ∧
      goMap.Len h2 m = (iterKeys H h2 m).length ∧
      goMap.Iterate H h2 m = wrapAll H (iterKeys H h2 m) := by
  refine ⟨{ h with maps := h.maps.set i (mapAssign kd vd es) }, ?_, ?_, ?_, ?_, rfl⟩
  · simp [goMap.SetKey, hk, hv, hm, Data.IsNil, SetMapIndex, hro.1, hro.2.1, hro.2.2, hak, hav,
      hh, hes]
  all_goals
    have hent := mapEntries_set h m i es (mapAssign kd vd es) hm hes
    have hperm : ((iterKeys H { h with maps := h.maps.set i (mapAssign kd vd es) } m).map
        (fun x => x.data)).Perm ((mapAssign kd vd es).map (fun e => e.1)) := by
      simp only [iterKeys, hent, List.map_map]
      exact (H.mapOrder_perm _).map _
  · have h1 := (hperm.filter (fun x => keyEq kd x))
    rw [mapAssign_key_once kd vd hr es hu] at h1
    exact List.perm_singleton.mp h1
  · have h1 := (hperm.filter (fun x => !keyEq kd x))
    rw [mapAssign_other_keys kd vd hr es] at h1
    exact h1
  · simp only [goMap.Len, iterKeys, hent, List.length_map]
    exact ((H.mapOrder_perm _).length_eq).symm

/-- C16, amended, at a concrete input: the key `"b"` into a
`map[string]int` that holds the key `"a"`. -/
theorem goMap_SetKey_then_iterate_witness :
    ∃ h2, goMap.SetKey demoHost { maps := [[(.str "a", .int 1)]] }
        { typ := 26, data := .map (some 0) } (.StringV "b") (.IntV 2) = (.ok (), h2) ∧
      ((iterKeys demoHost h2 { typ := 26, data := .map (some 0) }).map
        (fun x => x.data)).filter (fun x => keyEq (.str "b") x) = [.str "b"] ∧
      (((iterKeys demoHost h2 { typ := 26, data := .map (some 0) }).map
        (fun x => x.data)).filter (fun x => !keyEq (.str "b") x)).Perm
        (([(Data.str "a", Data.int 1)].map (fun e => e.1)).filter
          (fun x => !keyEq (.str "b") x)) ∧
      goMap.Len h2 { typ := 26, data := .map (some 0) } =
        (iterKeys demoHost h2 { typ := 26, data := .map (some 0) }).length ∧
      goMap.Iterate demoHost h2 { typ := 26, data := .map (some 0) } =
        wrapAll demoHost (iterKeys demoHost h2 { typ := 26, data := .map (some 0) }) :=
  goMap_SetKey_then_iterate demoHost { maps := [[(.str "a", .int 1)]] }
    { typ := 26, data := .map (some 0) } (.StringV "b") (.IntV 2)
    { typ := 6, data := .str "b" } { typ := 1, data := .int 2 } (.str "b") (.int 2) 0
    [(.str "a", .int 1)] rfl rfl rfl rfl ⟨rfl, rfl, rfl⟩ rfl rfl rfl rfl (by decide)

/-- The Go function `builtin_close`, called directly with the channel as
its only argument: on an open channel of the receive-only type
`<-chan int` it returns the already-closed error and the channel stays open;
and so it does on the open channel that `goStruct.Attr` returns for the
unexported field `ch` of `C{ch: c}`, a read-only value. -/
theorem builtin_close_open_channel_refused :
    builtin_close demoHost { chans := [{ closed := false }] }
      [.goChan { typ := 29, data := .chan (some 0) }] [] =
      (.error .closeAlreadyClosed, { chans := [{ closed := false }] }) ∧
    goStruct.Attr demoHost { chans := [{ closed := false }] }
      { typ := 41, data := .struct [.chan (some 0)] } "ch" =
      .ok (some (.goChan { typ := 28, data := .chan (some 0), stickyRO := true })) ∧
    builtin_close demoHost { chans := [{ closed := false }] }
      [.goChan { typ := 28, data := .chan (some 0), stickyRO := true }] [] =
      (.error .closeAlreadyClosed, { chans := [{ closed := false }] }) :=
  ⟨rfl, rfl, rfl⟩

/-- The Go function `builtin_close`, called directly, never raises a
fault. -/
theorem builtin_close_no_fault (H : Host) (h : Heap) (args kwargs : List SValue) (msg : String) :
    (builtin_close H h args kwargs).1 ≠ .fault msg := by
  unfold builtin_close
  split
  · split
    · simp
    · split <;> simp
  · simp

/-- The Go function `builtin_close`, called directly with a channel facade
as its only argument.  On a nil channel it returns the close-of-nil-channel
error; on a closed channel the already-closed error; on an open channel
whose type is not receive-only and whose value is not read-only it returns
`None` and the channel becomes closed; on an open channel of a receive-only
type it returns the already-closed error.  The error cases leave the memory
unchanged, and in no case is a fault raised. -/
theorem builtin_close_states (H : Host) (h : Heap) (ch : RVal) :
    (ch.data.IsNil = true →
      builtin_close H h [.goChan ch] [] = (.error .closeOfNilChannel, h)) ∧
    (∀ i st, ch.data = .chan (some i) → h.chans[i]? = some st →
      (st.closed = true →
        builtin_close H h [.goChan ch] [] = (.error .closeAlreadyClosed, h)) ∧
      (st.closed = false → ch.isRO = false → (H.info ch.typ).chanDir ≠ .RecvDir →
        builtin_close H h [.goChan ch] [] =
          (.ok .NoneV, { h with chans := h.chans.set i { st with closed := true } })) ∧
      (st.closed = false → (H.info ch.typ).chanDir = .RecvDir →
        builtin_close H h [.goChan ch] [] = (.error .closeAlreadyClosed, h))) ∧
    (∀ msg, (builtin_close H h [.goChan ch] []).1 ≠ .fault msg) := by
  refine ⟨fun hnil => ?_, fun i st hd hst => ⟨fun hc => ?_, fun hc hro hdir => ?_,
    fun hc hdir => ?_⟩, fun msg => builtin_close_no_fault H h _ _ msg⟩
  · simp [builtin_close, hnil]
  · by_cases hro : ch.isRO = true <;> by_cases hdir : (H.info ch.typ).chanDir = .RecvDir <;>
      simp [builtin_close, hd, Data.IsNil, Close, hro, hdir, hst, hc]
  · simp [builtin_close, hd, Data.IsNil, Close, hro, hdir, hst, hc]
  · by_cases hro : ch.isRO = true <;>
      simp [builtin_close, hd, Data.IsNil, Close, hro, hdir]

/-- The Go function `builtin_close`, called directly on an open and then on
a closed `chan int`. -/
theorem builtin_close_states_witness :
    builtin_close demoHost { chans := [{ closed := false }] }
      [.goChan { typ := 28, data := .chan (some 0) }] [] =
      (.ok .NoneV, { chans := [{ closed := true }] }) ∧
    builtin_close demoHost { chans := [{ closed := true }] }
      [.goChan { typ := 28, data := .chan (some 0) }] [] =
      (.error .closeAlreadyClosed, { chans := [{ closed := true }] }) :=
  ⟨((builtin_close_states demoHost { chans := [{ closed := false }] }
      { typ := 28, data := .chan (some 0) }).2.1 0 { closed := false } rfl rfl).2.1 rfl rfl
      (by decide),
   ((builtin_close_states demoHost { chans := [{ closed := true }] }
      { typ := 28, data := .chan (some 0) }).2.1 0 { closed := true } rfl rfl).1 rfl⟩

/-- A call of the entry `close` of `Builtins` with a number of arguments
other than four is rejected with the arity error of `goFunc.CallInternal`,
whatever the arguments are, and the memory is unchanged. -/
theorem Builtins_close_arity (H : Host) (h : Heap) (fn : RVal) (args : List SValue)
    (hn : fn.data.IsNil = false) (hins : (H.info fn.typ).ins.length = 4)
    (hv : (H.info fn.typ).variadic = false) (ha : args.length ≠ 4) :
    Builtins.close H h fn args [] =
      (.error (.arityMismatch (H.funcName fn.data) args.length 4), h) := by
  have hr : arityRejected (H.info fn.typ) args.length = true := by
    simp only [arityRejected, hins, hv, Bool.not_false, Bool.and_true, Bool.or_eq_true,
      decide_eq_true_eq]
    omega
  simp [Builtins.close, goFunc.CallInternal, hn, hr, hins]

/-- C17, at the failing input: the entry `close` of `Builtins` is
`ValueOf(builtin_close)`, the facade of a Go function of four parameters
that is not variadic.  The script call `close(ch)` on an open `chan int`
returns the arity error and the channel stays open, where the Go function
called with that argument returns `None` and closes the channel; on a
closed channel and on a nil channel the call returns the same arity error,
not the already-closed and the close-of-nil-channel error. -/
theorem Builtins_close_rejects_channel :
    goValueOf demoHost (some (46, .func 5)) = .ok (.goFunc demoClose) ∧
    (demoHost.info 46).ins.length = 4 ∧ (demoHost.info 46).variadic = false ∧
    Builtins.close demoHost { chans := [{ closed := false }] } demoClose
      [.goChan { typ := 28, data := .chan (some 0) }] [] =
      (.error (.arityMismatch "go.starlark.net/stargo.builtin_close" 1 4),
        { chans := [{ closed := false }] }) ∧
    builtin_close demoHost { chans := [{ closed := false }] }
      [.goChan { typ := 28, data := .chan (some 0) }] [] =
      (.ok .NoneV, { chans := [{ closed := true }] }) ∧
    Builtins.close demoHost { chans := [{ closed := true }] } demoClose
      [.goChan { typ := 28, data := .chan (some 0) }] [] =
      (.error (.arityMismatch "go.starlark.net/stargo.builtin_close" 1 4),
        { chans := [{ closed := true }] }) ∧
    Builtins.close demoHost {} demoClose [.goChan { typ := 28, data := .chan none }] [] =
      (.error (.arityMismatch "go.starlark.net/stargo.builtin_close" 1 4), {}) :=
  ⟨rfl, rfl, rfl, rfl, rfl, rfl, rfl⟩

/-- The arity error for the call `close(ch)` in the concrete host, from the
general statement. -/
theorem Builtins_close_arity_demoHost :
    Builtins.close demoHost {} demoClose [.goChan { typ := 28, data := .chan none }] [] =
      (.error (.arityMismatch (demoHost.funcName demoClose.data) 1 4), {}) :=
  Builtins_close_arity demoHost {} demoClose [.goChan { typ := 28, data := .chan none }]
    rfl rfl rfl (by decide)

end Stargo

/-! ## Function calls and comparison: claims C18 to C20 -/

namespace Stargo

/-- The arity check of `goFunc.CallInternal` accepts `n` arguments for `k`
parameters if and only if `n = k`, or the function is variadic and
`n ≥ k`. -/
theorem arityRejected_iff (ft : TypeInfo) (n : Nat) :
    arityRejected ft n = false ↔
      (if ft.variadic then ft.ins.length ≤ n else n = ft.ins.length) := by
  unfold arityRejected
  cases ft.variadic
  · simp
    omega
  · simp

/-- C18, at the failing input: a function of the type of `fmt.Errorf`, with
two parameters of which the last is variadic, called with the format string
alone, is rejected by the arity check, although one argument is at least
`k - 1`; with one variadic argument the call is accepted. -/
theorem variadic_call_without_variadic_arguments_rejected :
    (demoHost.info 33).variadic = true ∧ (demoHost.info 33).ins.length = 2 ∧
    goFunc.CallInternal demoHost {} { typ := 33, data := .func 1 } [.StringV "x"] [] =
      (.error (.arityMismatch "f" 1 2), {}) ∧
    goFunc.CallInternal demoHost {} { typ := 33, data := .func 1 } [.StringV "x", .IntV 1] [] =
      (.ok (.StringV "error"), {}) :=
  ⟨rfl, rfl, rfl, rfl⟩

/-- C20, at the failing input: the comparison `==` of two unsafe-pointer
facades that hold the same address returns an error and no boolean, and so
does `!=`; the same comparison of two pointer facades returns `true`. -/
theorem goUnsafePointer_comparison_not_implemented :
    goUnsafePointer.CompareSameType demoHost .EQL { typ := 19, data := .unsafePtr 4096 }
      { typ := 19, data := .unsafePtr 4096 } = .error .unsafePointerComparison ∧
    goUnsafePointer.CompareSameType demoHost .NEQ { typ := 19, data := .unsafePtr 4096 }
      { typ := 19, data := .unsafePtr 4096 } = .error .unsafePointerComparison ∧
    goPtr.CompareSameType demoHost .EQL { typ := 12, data := .ptr (some { loc := 0 }) }
      { typ := 12, data := .ptr (some { loc := 0 }) } = .ok true :=
  ⟨rfl, rfl, rfl⟩

end Stargo

/-! ## The invariant of the facades: claim C21 -/

namespace Stargo

/-- A facade that the kind switch of `wrap` builds from a value that is not
addressable satisfies the invariant. -/
theorem wrapSwitch_invariant (H : Host) (v : RVal) (f : SValue) (ha : v.CanAddr = false)
    (hw : wrapSwitch H v = .ok f) : invariant H f := by
  have hr := H.rtype_kind
  unfold wrapSwitch at hw
  intro rv hrv
  cases hk : H.kind v.typ <;> simp only [hk] at hw <;> (try split_ifs at hw) <;>
    (try split at hw) <;>
    simp only [Outcome.ok.injEq, reduceCtorEq] at hw <;> subst hw <;>
    simp [Reflect, ValueOf] at hrv <;> subst hrv <;>
    simp_all [RVal.CanAddr, Host.kind]

/-- A facade that `wrap` builds after its check of `CanAddr` satisfies the
invariant. -/
theorem wrapKind_invariant (H : Host) (sticky embed : Bool) (t : TypeRef) (d : Data)
    (f : SValue) (hw : wrapKind H sticky embed t d = .ok f) : invariant H f := by
  induction sticky, embed, t, d using wrapKind.induct H with
  | case1 s e typ t d hk ih =>
    rw [wrapKind, if_pos hk] at hw
    exact ih hw
  | case2 s e typ t d hk =>
    rw [wrapKind, if_neg hk] at hw
    exact wrapSwitch_invariant H { typ := typ, data := .iface t d, stickyRO := s, embedRO := e } f rfl hw
  | case3 s e typ d hd =>
    rw [wrapKind] at hw
    · exact wrapSwitch_invariant H { typ := typ, data := d, stickyRO := s, embedRO := e } f rfl hw
    · exact hd

/-- Every facade that `wrap` returns satisfies the invariant. -/
theorem wrap_invariant (H : Host) (v : Option RVal) (f : SValue) (hw : wrap H v = .ok f) :
    invariant H f := by
  cases v with
  | none => simp [wrap] at hw
  | some v =>
    unfold wrap at hw
    by_cases ha : v.CanAddr = true
    · simp [ha] at hw
    · simp only [ha, Bool.false_eq_true, if_false] at hw
      exact wrapKind_invariant H _ _ _ _ f hw

end Stargo

/-! ## Construction paths of the facades -/

namespace Stargo

/-- A sequence of two steps that succeeds: both steps succeed. -/
theorem Outcome.bind_ok {α β : Type} (o : Outcome α) (f : α → Outcome β) (b : β)
    (h : o.bind f = .ok b) : ∃ a, o = .ok a ∧ f a = .ok b := by
  cases o with
  | ok a => exact ⟨a, rfl, h⟩
  | error e => simp [Outcome.bind] at h
  | fault m => simp [Outcome.bind] at h

/-- A mapped outcome that succeeds: the outcome succeeds. -/
theorem Outcome.map_ok {α β : Type} (o : Outcome α) (f : α → β) (b : β)
    (h : o.map f = .ok b) : ∃ a, o = .ok a ∧ f a = b := by
  cases o with
  | ok a => exact ⟨a, rfl, by simpa [Outcome.map, Outcome.bind] using h⟩
  | error e => simp [Outcome.map, Outcome.bind] at h
  | fault m => simp [Outcome.map, Outcome.bind] at h

/-- The facade of a copy satisfies the invariant. -/
theorem copy_invariant (H : Host) (o : Outcome RVal) (f : SValue)
    (hw : (o.bind (copyVal H)).bind (wrap H) = .ok f) : invariant H f := by
  obtain ⟨c, -, hc⟩ := Outcome.bind_ok _ _ _ hw
  exact wrap_invariant H c f hc

/-- The facade of a method value satisfies the invariant, in a host whose
method types are function types. -/
theorem MethodByName_invariant (H : Host) (v m : RVal) (name : String)
    (hmk : ∀ t ft, (H.info t).methods.lookup name = some ft → H.kind ft = .Func)
    (hm : MethodByName H v name = .ok (some m)) : invariant H (.goFunc m) := by
  unfold MethodByName at hm
  intro rv hrv
  simp only [Reflect, Option.some.injEq] at hrv
  subst hrv
  split at hm
  · simp at hm
  · cases hl : (H.info v.typ).methods.lookup name with
    | none => simp [hl] at hm
    | some ft =>
      simp only [hl] at hm
      split_ifs at hm
      simp only [Outcome.ok.injEq, Option.some.injEq] at hm
      subst hm
      exact ⟨rfl, by simp [hmk v.typ ft hl]⟩

/-- The facades of a list of values satisfy the invariant. -/
theorem wrapAll_invariant (H : Host) (rs : List RVal) :
    ∀ xs, wrapAll H rs = .ok xs → ∀ x ∈ xs, invariant H x := by
  induction rs with
  | nil =>
    intro xs h x hx
    simp only [wrapAll, Outcome.ok.injEq] at h
    subst h
    simp at hx
  | cons r rs ih =>
    intro xs h x hx
    obtain ⟨y, hy, h2⟩ := Outcome.bind_ok _ _ _ h
    obtain ⟨ys, hys, h3⟩ := Outcome.map_ok _ _ _ h2
    subst h3
    rcases List.mem_cons.mp hx with rfl | hx
    · exact wrap_invariant H _ _ hy
    · exact ih ys hys x hx

/-- The values that the iterator of an array or a slice yields satisfy the
invariant. -/
theorem indexIterate_invariant (H : Host) (h : Heap) (v : RVal) (n : Nat) :
    ∀ i xs, indexIterate H h v n i = .ok xs → ∀ x ∈ xs, invariant H x := by
  induction n with
  | zero =>
    intro i xs hi x hx
    simp only [indexIterate, Outcome.ok.injEq] at hi
    subst hi
    simp at hx
  | succ n ih =>
    intro i xs hi x hx
    obtain ⟨y, hy, h2⟩ := Outcome.bind_ok _ _ _ hi
    obtain ⟨ys, hys, h3⟩ := Outcome.map_ok _ _ _ h2
    subst h3
    rcases List.mem_cons.mp hx with rfl | hx
    · exact copy_invariant H _ _ hy
    · exact ih (i + 1) ys hys x hx

/-- The facade that `goStruct.Attr` returns satisfies the invariant. -/
theorem goStruct_Attr_invariant (H : Host) (h : Heap) (s : RVal) (name : String) (f : SValue)
    (hmk : ∀ t ft, (H.info t).methods.lookup name = some ft → H.kind ft = .Func)
    (ha : goStruct.Attr H h s name = .ok (some f)) : invariant H f := by
  obtain ⟨m, hm, h1⟩ := Outcome.bind_ok _ _ _ ha
  cases m with
  | some m =>
    simp only [Outcome.ok.injEq, Option.some.injEq] at h1
    subst h1
    exact MethodByName_invariant H s m name hmk hm
  | none =>
    obtain ⟨fl, -, h2⟩ := Outcome.bind_ok _ _ _ h1
    cases fl with
    | none => simp at h2
    | some fl =>
      obtain ⟨g, hg, h3⟩ := Outcome.map_ok _ _ _ h2
      simp only [Option.some.injEq] at h3
      subst h3
      obtain ⟨c, -, hc⟩ := Outcome.bind_ok _ _ _ hg
      exact wrap_invariant H c _ hc

/-- The facade that `goStruct.AttrAlias` returns satisfies the invariant. -/
theorem goStruct_AttrAlias_invariant (H : Host) (h : Heap) (s : RVal) (name : String)
    (f : SValue)
    (hmk : ∀ t ft, (H.info t).methods.lookup name = some ft → H.kind ft = .Func)
    (ha : goStruct.AttrAlias H h s name = .ok (some f)) : invariant H f := by
  obtain ⟨m, hm, h1⟩ := Outcome.bind_ok _ _ _ ha
  cases m with
  | some m =>
    simp only [Outcome.ok.injEq, Option.some.injEq] at h1
    subst h1
    exact MethodByName_invariant H s m name hmk hm
  | none =>
    obtain ⟨m2, hm2, h2⟩ := Outcome.bind_ok _ _ _ h1
    cases m2 with
    | some m2 =>
      simp only [Outcome.ok.injEq, Option.some.injEq] at h2
      subst h2
      split_ifs at hm2
      · obtain ⟨ptr, -, hp⟩ := Outcome.bind_ok _ _ _ hm2
        exact MethodByName_invariant H ptr m2 name hmk hp
      · simp at hm2
    | none =>
      obtain ⟨fl, -, h3⟩ := Outcome.bind_ok _ _ _ h2
      cases fl with
      | none => simp at h3
      | some fl =>
        simp only at h3
        split_ifs at h3
        · obtain ⟨g, hg, h4⟩ := Outcome.map_ok _ _ _ h3
          simp only [Option.some.injEq] at h4
          subst h4
          obtain ⟨a, -, hw⟩ := Outcome.bind_ok _ _ _ hg
          exact wrap_invariant H _ _ hw
        · obtain ⟨g, hg, h4⟩ := Outcome.map_ok _ _ _ h3
          simp only [Option.some.injEq] at h4
          subst h4
          exact wrap_invariant H _ _ hg

/-- The facade that `goPtr.Attr` returns satisfies the invariant. -/
theorem goPtr_Attr_invariant (H : Host) (h : Heap) (p : RVal) (name : String) (f : SValue)
    (hmk : ∀ t ft, (H.info t).methods.lookup name = some ft → H.kind ft = .Func)
    (ha : goPtr.Attr H h p name = .ok (some f)) : invariant H f := by
  obtain ⟨m, hm, h1⟩ := Outcome.bind_ok _ _ _ ha
  cases m with
  | some m =>
    simp only [Outcome.ok.injEq, Option.some.injEq] at h1
    subst h1
    exact MethodByName_invariant H p m name hmk hm
  | none =>
    simp only at h1
    split_ifs at h1
    · split at h1
      · simp at h1
      · obtain ⟨fl, -, h3⟩ := Outcome.bind_ok _ _ _ h1
        cases fl with
        | none => simp at h3
        | some fl =>
          simp only at h3
          split_ifs at h3
          obtain ⟨g, hg, h4⟩ := Outcome.map_ok _ _ _ h3
          simp only [Option.some.injEq] at h4
          subst h4
          obtain ⟨c, -, hc⟩ := Outcome.bind_ok _ _ _ hg
          exact wrap_invariant H c _ hc
    · simp at h1

/-- The facade that `goPtr.AttrAlias` returns satisfies the invariant. -/
theorem goPtr_AttrAlias_invariant (H : Host) (h : Heap) (p : RVal) (name : String)
    (f : SValue)
    (hmk : ∀ t ft, (H.info t).methods.lookup name = some ft → H.kind ft = .Func)
    (ha : goPtr.AttrAlias H h p name = .ok (some f)) : invariant H f := by
  obtain ⟨m, hm, h1⟩ := Outcome.bind_ok _ _ _ ha
  cases m with
  | some m =>
    simp only [Outcome.ok.injEq, Option.some.injEq] at h1
    subst h1
    exact MethodByName_invariant H p m name hmk hm
  | none =>
    simp only at h1
    split_ifs at h1
    · split at h1
      · simp at h1
      · obtain ⟨fl, -, h3⟩ := Outcome.bind_ok _ _ _ h1
        cases fl with
        | none => simp at h3
        | some fl =>
          simp only at h3
          split_ifs at h3
          obtain ⟨g, hg, h4⟩ := Outcome.map_ok _ _ _ h3
          simp only [Option.some.injEq] at h4
          subst h4
          obtain ⟨a, -, hw⟩ := Outcome.bind_ok _ _ _ hg
          exact wrap_invariant H _ _ hw
    · simp at h1

end Stargo

namespace Stargo

/-- The kind switch of `wrap` never returns a tuple. -/
theorem wrapSwitch_not_tuple (H : Host) (v : RVal) (xs : List SValue) :
    wrapSwitch H v ≠ .ok (.TupleV xs) := by
  unfold wrapSwitch
  cases H.kind v.typ <;> simp only [] <;> (try split_ifs) <;> (try split) <;> simp

/-- The function `wrap` never returns a tuple. -/
theorem wrapKind_not_tuple (H : Host) (sticky embed : Bool) (t : TypeRef) (d : Data)
    (xs : List SValue) : wrapKind H sticky embed t d ≠ .ok (.TupleV xs) := by
  induction sticky, embed, t, d using wrapKind.induct H with
  | case1 s e typ t d hk ih =>
    rw [wrapKind, if_pos hk]
    exact ih
  | case2 s e typ t d hk =>
    rw [wrapKind, if_neg hk]
    exact wrapSwitch_not_tuple H _ xs
  | case3 s e typ d hd =>
    rw [wrapKind]
    · exact wrapSwitch_not_tuple H _ xs
    · exact hd

/-- The result of a call that returned normally satisfies the invariant, and
so does every component of a tuple of results. -/
theorem wrapResults_invariant (H : Host) (outs : List (TypeRef × Data)) (r : SValue)
    (hw : wrapResults H outs = .ok r) :
    invariant H r ∧ ∀ xs, r = .TupleV xs → ∀ x ∈ xs, invariant H x := by
  unfold wrapResults at hw
  split at hw
  · simp only [Outcome.ok.injEq] at hw
    subst hw
    refine ⟨?_, ?_⟩
    · intro rv hrv
      simp [Reflect] at hrv
    · intro xs hx
      simp at hx
  · refine ⟨wrap_invariant H _ _ hw, ?_⟩
    intro xs hx x hmem
    subst hx
    exfalso
    simp only [wrap, ValueOf, RVal.CanAddr, Option.isSome_none, Bool.false_eq_true,
      if_false] at hw
    exact wrapKind_not_tuple H _ _ _ _ xs hw
  · obtain ⟨ys, hys, h4⟩ := Outcome.map_ok _ _ _ hw
    subst h4
    refine ⟨?_, ?_⟩
    · intro rv hrv
      simp [Reflect] at hrv
    · intro xs hx
      simp only [SValue.TupleV.injEq] at hx
      subst hx
      exact wrapAll_invariant H _ ys hys

/-- The result of `goFunc.CallInternal` satisfies the invariant, and so does
every component of a tuple of results. -/
theorem goFunc_CallInternal_invariant (H : Host) (h h2 : Heap) (fn : RVal)
    (args kwargs : List SValue) (r : SValue)
    (hc : goFunc.CallInternal H h fn args kwargs = (.ok r, h2)) :
    invariant H r ∧ ∀ xs, r = .TupleV xs → ∀ x ∈ xs, invariant H x := by
  unfold goFunc.CallInternal at hc
  split_ifs at hc
  · simp at hc
  · simp at hc
  · simp only at hc
    split_ifs at hc
    · simp at hc
    · split at hc
      · simp at hc
      · simp at hc
      · split at hc
        · simp at hc
        · simp only [Prod.mk.injEq] at hc
          exact wrapResults_invariant H _ r hc.1

/-- The facade that a call of a type returns satisfies the invariant. -/
theorem goType_CallInternal_invariant (H : Host) (t : TypeIface) (args kwargs : List SValue)
    (f : SValue) (hc : goType.CallInternal H t args kwargs = .ok f) : invariant H f := by
  unfold goType.CallInternal at hc
  split_ifs at hc
  split at hc
  · split at hc
    · obtain ⟨r, -, hw⟩ := Outcome.bind_ok _ _ _ hc
      exact wrap_invariant H _ _ hw
    · exact wrap_invariant H _ _ hc
  · simp at hc

/-- The facade that `goArray.IndexAlias` returns satisfies the invariant. -/
theorem goArray_IndexAlias_invariant (H : Host) (h : Heap) (a : RVal) (i : Nat) (f : SValue)
    (hc : goArray.IndexAlias H h a i = .ok f) : invariant H f := by
  obtain ⟨e, -, h1⟩ := Outcome.bind_ok _ _ _ hc
  split_ifs at h1
  · obtain ⟨p, -, hw⟩ := Outcome.bind_ok _ _ _ h1
    exact wrap_invariant H _ _ hw
  · exact wrap_invariant H _ _ h1

/-- The facade that `builtin_append` returns satisfies the invariant. -/
theorem builtin_append_invariant (H : Host) (h h2 : Heap) (args kwargs : List SValue)
    (r : SValue) (hc : builtin_append H h args kwargs = (.ok r, h2)) : invariant H r := by
  unfold builtin_append at hc
  split_ifs at hc
  · simp at hc
  · split at hc
    · simp at hc
    · split at hc
      · split at hc
        · simp only [Prod.mk.injEq] at hc
          exact wrap_invariant H _ _ hc.1
        · simp at hc
      · simp at hc
      · simp at hc
    · simp at hc

/-- The facade that `builtin_slice` returns satisfies the invariant. -/
theorem builtin_slice_invariant (H : Host) (args kwargs : List SValue) (r : SValue)
    (hc : builtin_slice H args kwargs = .ok r) : invariant H r := by
  unfold builtin_slice at hc
  split at hc
  · split at hc
    · obtain ⟨x, -, hw⟩ := Outcome.bind_ok _ _ _ hc
      exact wrap_invariant H _ _ hw
    · simp at hc
  · split at hc
    · split_ifs at hc
      · obtain ⟨x, -, hw⟩ := Outcome.bind_ok _ _ _ hc
        exact wrap_invariant H _ _ hw
      · obtain ⟨x, -, hw⟩ := Outcome.bind_ok _ _ _ hc
        exact wrap_invariant H _ _ hw
    · simp at hc
  · simp at hc

/-- The part of C21 that holds, in a host whose method types are function
types: every facade that a bridge operation returns satisfies the invariant
INV-1, for every argument.  The operations are `ValueOf`, `VarOf`, a call of
a type, `Attr` and `AttrAlias` of structs and pointers, `Attr` of the other
facades, `Index` and `IndexAlias`, the iteration of arrays, slices and maps,
the result of a function call, and the builtins `append` and `slice`. -/
theorem facades_invariant (H : Host)
    (hmk : ∀ t name ft, (H.info t).methods.lookup name = some ft → H.kind ft = .Func) :
    (∀ x f, goValueOf H x = .ok f → invariant H f) ∧
    (∀ p f, VarOf H p = .ok f → invariant H f) ∧
    (∀ t args kwargs f, goType.CallInternal H t args kwargs = .ok f → invariant H f) ∧
    (∀ h s name f, goStruct.Attr H h s name = .ok (some f) → invariant H f) ∧
    (∀ h s name f, goStruct.AttrAlias H h s name = .ok (some f) → invariant H f) ∧
    (∀ h p name f, goPtr.Attr H h p name = .ok (some f) → invariant H f) ∧
    (∀ h p name f, goPtr.AttrAlias H h p name = .ok (some f) → invariant H f) ∧
    (∀ v name f, method H v name = .ok (some f) → invariant H f) ∧
    (∀ h a i f, goArray.Index H h a i = .ok f → invariant H f) ∧
    (∀ h a i f, goArray.IndexAlias H h a i = .ok f → invariant H f) ∧
    (∀ h s i f, goSlice.Index H h s i = .ok f → invariant H f) ∧
    (∀ h a fs, goArray.Iterate H h a = .ok fs → ∀ f ∈ fs, invariant H f) ∧
    (∀ h m fs, goMap.Iterate H h m = .ok fs → ∀ f ∈ fs, invariant H f) ∧
    (∀ h fn args kwargs r h2, goFunc.CallInternal H h fn args kwargs = (.ok r, h2) →
      invariant H r ∧ ∀ xs, r = .TupleV xs → ∀ x ∈ xs, invariant H x) ∧
    (∀ h args kwargs r h2, builtin_append H h args kwargs = (.ok r, h2) → invariant H r) ∧
    (∀ args kwargs r, builtin_slice H args kwargs = .ok r → invariant H r) := by
  refine ⟨?_, ?_, ?_, ?_, ?_, ?_, ?_, ?_, ?_, ?_, ?_, ?_, ?_, ?_, ?_, ?_⟩
  · intro x f hf
    unfold goValueOf at hf
    split at hf
    · simp only [Outcome.ok.injEq] at hf
      subst hf
      intro rv hrv
      simp [Reflect] at hrv
    · exact wrap_invariant H _ _ hf
  · intro p f hf
    unfold VarOf at hf
    split at hf
    · simp at hf
    · split_ifs at hf
      exact wrap_invariant H _ _ hf
  · intro t args kwargs f hf
    exact goType_CallInternal_invariant H t args kwargs f hf
  · intro h s name f hf
    exact goStruct_Attr_invariant H h s name f (fun t ft => hmk t name ft) hf
  · intro h s name f hf
    exact goStruct_AttrAlias_invariant H h s name f (fun t ft => hmk t name ft) hf
  · intro h p name f hf
    exact goPtr_Attr_invariant H h p name f (fun t ft => hmk t name ft) hf
  · intro h p name f hf
    exact goPtr_AttrAlias_invariant H h p name f (fun t ft => hmk t name ft) hf
  · intro v name f hf
    obtain ⟨m, hm, h1⟩ := Outcome.map_ok _ _ _ hf
    cases m with
    | none => simp at h1
    | some m =>
      simp only [Option.map_some', Option.some.injEq] at h1
      subst h1
      exact MethodByName_invariant H v m name (fun t ft => hmk t name ft) hm
  · intro h a i f hf
    exact copy_invariant H _ f hf
  · intro h a i f hf
    exact goArray_IndexAlias_invariant H h a i f hf
  · intro h s i f hf
    exact copy_invariant H _ f hf
  · intro h a fs hf
    exact indexIterate_invariant H h a _ 0 fs hf
  · intro h m fs hf
    exact wrapAll_invariant H _ fs hf
  · intro h fn args kwargs r h2 hf
    exact goFunc_CallInternal_invariant H h h2 fn args kwargs r hf
  · intro h args kwargs r h2 hf
    exact builtin_append_invariant H h h2 args kwargs r hf
  · intro args kwargs r hf
    exact builtin_slice_invariant H args kwargs r hf

/-- The method types of the concrete host are function types. -/
theorem demoHost_method_types (t : TypeRef) (name : String) (ft : TypeRef)
    (hl : (demoHost.info t).methods.lookup name = some ft) : demoHost.kind ft = .Func := by
  have key : ∀ ms : List (String × TypeRef), (∀ p ∈ ms, demoHost.kind p.2 = .Func) →
      ms.lookup name = some ft → demoHost.kind ft = .Func := by
    intro ms
    induction ms with
    | nil => intro _ h; simp at h
    | cons p ps ih =>
      intro hall h
      obtain ⟨k, v⟩ := p
      simp only [List.lookup] at h
      split at h
      · simp only [Option.some.injEq] at h
        subst h
        exact hall (k, v) (List.mem_cons_self _ _)
      · exact ih (fun q hq => hall q (List.mem_cons_of_mem _ hq)) h
  have hall : ∀ p ∈ (demoHost.info t).methods, demoHost.kind p.2 = .Func := by
    show ∀ p ∈ (demoInfo t).methods, demoHost.kind p.2 = .Func
    unfold demoInfo
    split <;> simp <;> decide
  exact key _ hall hl

end Stargo

namespace Stargo

/-- The invariant holds for every facade that the operations of the concrete
host return. -/
theorem facades_invariant_demoHost :
    (∀ x f, goValueOf demoHost x = .ok f → invariant demoHost f) ∧
    (∀ h s name f, goStruct.AttrAlias demoHost h s name = .ok (some f) →
      invariant demoHost f) :=
  ⟨(facades_invariant demoHost demoHost_method_types).1,
   (facades_invariant demoHost demoHost_method_types).2.2.2.2.1⟩

/-- A copy made by `copyVal` is not addressable, so `wrap` of it never raises
the fault `addr`. -/
theorem copyVal_wrap_no_addr (H : Host) (v : RVal) (c : Option RVal)
    (hc : copyVal H v = .ok c) : wrap H c ≠ .fault "addr" := by
  cases c with
  | none => simp [wrap]
  | some c =>
    have hna : c.CanAddr = false := by
      unfold copyVal at hc
      split_ifs at hc with h1 h2
      · simp only [Outcome.ok.injEq, Option.some.injEq] at hc
        subst hc
        simpa using h1
      · split at hc
        · split at hc
          · simp only [Outcome.ok.injEq, Option.some.injEq] at hc
            subst hc
            rfl
          · simp at hc
        · simp only [Outcome.ok.injEq, Option.some.injEq] at hc
          subst hc
          rfl
    intro hw
    rw [(wrap_valid H c).1, hna] at hw
    exact Bool.noConfusion hw

/-- C21, at the failing input: for `type Inner struct { A int }` and
`type OuterP struct { *Inner }`, `ValueOf(OuterP{&Inner{A: 1}})` is a struct
facade that satisfies the invariant INV-1 (its value is not addressable and
of kind struct), and `A` is an exported field, promoted through the embedded
pointer; `Attr("A")` returns 1, yet `AttrAlias("A")` raises the fault `addr`
of `wrap`. -/
theorem goStruct_AttrAlias_promoted_field_raises_addr :
    goValueOf demoHost (some (38, .struct [.ptr (some { loc := 0 })])) =
      .ok (.goStruct { typ := 38, data := .struct [.ptr (some { loc := 0 })] }) ∧
    RVal.CanAddr { typ := 38, data := .struct [.ptr (some { loc := 0 })] } = false ∧
    demoHost.kind 38 = .Struct ∧
    typeFieldByName demoHost 38 "A" = some [0, 0] ∧
    (demoHost.info 38).fields[0]? =
      some { Name := "Inner", Exported := true, Typ := 37, Anonymous := true } ∧
    (demoHost.info 23).fields[0]? = some { Name := "A", Exported := true, Typ := 1 } ∧
    goStruct.Attr demoHost { cells := [.struct [.int 1]] }
      { typ := 38, data := .struct [.ptr (some { loc := 0 })] } "A" = .ok (some (.IntV 1)) ∧
    goStruct.AttrAlias demoHost { cells := [.struct [.int 1]] }
      { typ := 38, data := .struct [.ptr (some { loc := 0 })] } "A" = .fault "addr" :=
  ⟨rfl, rfl, rfl, rfl, rfl, rfl, rfl, rfl⟩

end Stargo

/-! ## Indexed writes: claim C22 -/

namespace Stargo

/-- The content at a child of a path. -/
theorem Data.get_append (k : Nat) (p : List Nat) :
    ∀ d e : Data, d.get p = some e → d.get (p ++ [k]) = e.child k := by
  induction p with
  | nil =>
    intro d e hg
    simp only [Data.get, Option.some.injEq] at hg
    subst hg
    cases hc : d.child k <;> simp [Data.get, hc]
  | cons j ps ih =>
    intro d e hg
    cases hj : d.child j with
    | none => simp [Data.get, hj] at hg
    | some c0 =>
      simp only [Data.get, hj] at hg
      simpa [Data.get, hj] using ih c0 e hg

/-- The content of a child of a place. -/
theorem Heap.read_child (h : Heap) (pl : Place) (k : Nat) (e : Data)
    (hr : h.read pl = some e) : h.read { pl with path := pl.path ++ [k] } = e.child k := by
  unfold Heap.read at hr ⊢
  cases hcell : h.cells[pl.loc]? with
  | none => simp [hcell] at hr
  | some root =>
    simp only [hcell] at hr ⊢
    exact Data.get_append k pl.path root e hr

/-- The element of a slice at an index in range, when the backing array is
in memory. -/
theorem Index_slice (H : Host) (h : Heap) (s : RVal) (hdr : SliceHdr) (i : Nat) (e c : Data)
    (hk : H.kind s.typ = .Slice) (hd : s.data = .slice (some hdr)) (hi : i < hdr.len)
    (hr : h.read hdr.arr = some e) (hc : e.child (hdr.off + i) = some c) :
    Stargo.Index H h s i =
      .ok { typ := (H.info s.typ).elem, data := c, place := some (hdr.elemPlace i),
            stickyRO := s.isRO } := by
  have hrd : h.read (hdr.elemPlace i) = some c := by
    rw [← hc]
    exact Heap.read_child h hdr.arr (hdr.off + i) e hr
  simp [Stargo.Index, hk, hd, hi, hrd]

/-- The part of C22 on slices that holds, for a slice facade that is not
read-only, whose backing array is in memory, an index in range, and a script
value that converts to a value that is not read-only: `SetIndex` returns no
error; afterwards the element at the index holds the converted content, and
`Index` returns its facade if the element type is not an interface type; the
elements at the other indices are unchanged (the length is part of the
facade, which a store does not change).  If the conversion fails, `SetIndex`
returns its error and the memory is unchanged. -/
theorem goSlice_SetIndex_frame (H : Host) (h : Heap) (s : RVal) (hdr : SliceHdr) (i : Nat)
    (e c : Data) (val : SValue)
    (hk : H.kind s.typ = .Slice) (hd : s.data = .slice (some hdr)) (hi : i < hdr.len)
    (hro : s.isRO = false) (hr : h.read hdr.arr = some e)
    (hc : e.child (hdr.off + i) = some c) :
    (∀ xv xd, convert H val (H.info s.typ).elem = .ok xv → xv.isRO = false →
      assignTo H xv (H.info s.typ).elem = .ok xd →
      ∃ h2, goSlice.SetIndex H h s i val = (.ok (), h2) ∧
        Stargo.Index H h2 s i =
          .ok { typ := (H.info s.typ).elem, data := xd, place := some (hdr.elemPlace i) } ∧
        (H.kind (H.info s.typ).elem ≠ .Interface →
          goSlice.Index H h2 s i = wrap H (some (ValueOf (H.info s.typ).elem xd))) ∧
        ∀ j, j ≠ i → goSlice.Index H h2 s j = goSlice.Index H h s j) ∧
    (∀ err, convert H val (H.info s.typ).elem = .error err →
      goSlice.SetIndex H h s i val = (.error err, h)) := by
  have hs : s.stickyRO = false ∧ s.embedRO = false := by
    simpa [RVal.isRO] using hro
  have hidx := Index_slice H h s hdr i e c hk hd hi hr hc
  constructor
  · intro xv xd hconv hxro has
    obtain ⟨h2, e2, hw, hr2, hx, hfr⟩ := Heap.write_child h hdr.arr (hdr.off + i) xd e c hr hc
    have hidx2 := Index_slice H h2 s hdr i e2 xd hk hd hi hr2 hx
    rw [hro] at hidx2
    refine ⟨h2, ?_, hidx2, ?_, ?_⟩
    · have hxs : xv.stickyRO = false ∧ xv.embedRO = false := by
        simpa [RVal.isRO] using hxro
      have hw2 : h.write (hdr.elemPlace i) xd = some h2 := hw
      simp [goSlice.SetIndex, hidx, hconv, RVal.CanSet, RVal.CanAddr, hro, Set, has,
        RVal.isRO, hxs.1, hxs.2, hs.1, hs.2, hw2]
    · intro hni
      simp [goSlice.Index, hidx2, Outcome.bind, copyVal_exported H _ xd _ hni]
    · intro j hj
      have hrj : h2.read (hdr.elemPlace j) = h.read (hdr.elemPlace j) := by
        have h1 := Heap.read_child h2 hdr.arr (hdr.off + j) e2 hr2
        have h0 := Heap.read_child h hdr.arr (hdr.off + j) e hr
        have hne : hdr.off + j ≠ hdr.off + i := by omega
        show h2.read { hdr.arr with path := hdr.arr.path ++ [hdr.off + j] } =
          h.read { hdr.arr with path := hdr.arr.path ++ [hdr.off + j] }
        rw [h1, h0, hfr _ hne]
      simp [goSlice.Index, Stargo.Index, hk, hd, hrj]
  · intro err hconv
    simp [goSlice.SetIndex, hidx, hconv]

/-- The part of C22 on arrays that holds, for an array facade whose value is
not addressable and an index in range: `SetIndex` leaves the memory as it
is, and it returns an error for every script value, except that a fault
raised by the conversion is passed on. -/
theorem goArray_SetIndex_detached (H : Host) (h : Heap) (a : RVal) (i : Nat) (c : Data)
    (val : SValue) (ha : a.CanAddr = false) (hk : H.kind a.typ = .Array)
    (hi : i < (H.info a.typ).len) (hc : a.data.child i = some c) :
    (goArray.SetIndex H h a i val).2 = h ∧
    ((∃ err, (goArray.SetIndex H h a i val).1 = .error err) ∨
      ∃ m, convert H val (H.info a.typ).elem = .fault m ∧
        (goArray.SetIndex H h a i val).1 = .fault m) := by
  have hp : a.place = none := by
    cases hpl : a.place with
    | none => rfl
    | some p => simp [RVal.CanAddr, hpl] at ha
  have hidx : Stargo.Index H h a i =
      .ok { typ := (H.info a.typ).elem, data := c, stickyRO := a.isRO } := by
    simp [Stargo.Index, hk, hi, hc, hp]
  cases hconv : convert H val (H.info a.typ).elem with
  | ok x => simp [goArray.SetIndex, hidx, hconv, RVal.CanSet, RVal.CanAddr]
  | error err => simp [goArray.SetIndex, hidx, hconv]
  | fault m => simp [goArray.SetIndex, hidx, hconv]

/-- C22, at the failing input: `s = ValueOf([]interface{}{7})` is a slice
facade whose element 0 is settable, and `convert(None, interface{})`
succeeds with the nil interface; `s.SetIndex(0, None)` returns no error and
stores it, yet the subsequent `s.Index(0)` yields no value: it raises the
fault `unknown kind: invalid` of `wrap`, where before the store it returned
7. -/
theorem goSlice_Index_after_SetIndex_None_faults :
    convert demoHost .NoneV 7 = .ok { typ := 7, data := .nilIface } ∧
    (Stargo.Index demoHost { cells := [.array [.iface 1 (.int 7)]] }
      { typ := 34, data := .slice (some { arr := { loc := 0 }, off := 0, len := 1, cap := 1 }) }
      0).map RVal.CanSet = .ok true ∧
    goSlice.Index demoHost { cells := [.array [.iface 1 (.int 7)]] }
      { typ := 34, data := .slice (some { arr := { loc := 0 }, off := 0, len := 1, cap := 1 }) }
      0 = .ok (.IntV 7) ∧
    goSlice.SetIndex demoHost { cells := [.array [.iface 1 (.int 7)]] }
      { typ := 34, data := .slice (some { arr := { loc := 0 }, off := 0, len := 1, cap := 1 }) }
      0 .NoneV = (.ok (), { cells := [.array [.nilIface]] }) ∧
    goSlice.Index demoHost { cells := [.array [.nilIface]] }
      { typ := 34, data := .slice (some { arr := { loc := 0 }, off := 0, len := 1, cap := 1 }) }
      0 = .fault "unknown kind: invalid" :=
  ⟨rfl, rfl, rfl, rfl, rfl⟩

end Stargo

namespace Stargo

/-- The slice part of C22 on `s = ValueOf(xs[1:3])` for `xs = []int{1, 2, 3}`:
`s.SetIndex(1, 9)` stores 9 in `xs[2]`, `s.Index(1)` is 9 afterwards, and
`s.Index(0)` is unchanged. -/
theorem goSlice_SetIndex_frame_int_slice :
    goSlice.SetIndex demoHost { cells := [.array [.int 1, .int 2, .int 3]] }
      { typ := 42, data := .slice (some { arr := { loc := 0 }, off := 1, len := 2, cap := 2 }) }
      1 (.IntV 9) = (.ok (), { cells := [.array [.int 1, .int 2, .int 9]] }) ∧
    goSlice.Index demoHost { cells := [.array [.int 1, .int 2, .int 9]] }
      { typ := 42, data := .slice (some { arr := { loc := 0 }, off := 1, len := 2, cap := 2 }) }
      1 = .ok (.IntV 9) ∧
    goSlice.Index demoHost { cells := [.array [.int 1, .int 2, .int 9]] }
      { typ := 42, data := .slice (some { arr := { loc := 0 }, off := 1, len := 2, cap := 2 }) }
      0 = .ok (.IntV 2) ∧
    (∀ err, convert demoHost (.IntV 9) (demoHost.info 42).elem = .error err →
      goSlice.SetIndex demoHost { cells := [.array [.int 1, .int 2, .int 3]] }
        { typ := 42,
          data := .slice (some { arr := { loc := 0 }, off := 1, len := 2, cap := 2 }) }
        1 (.IntV 9) = (.error err, { cells := [.array [.int 1, .int 2, .int 3]] })) :=
  ⟨rfl, rfl, rfl,
   (goSlice_SetIndex_frame demoHost { cells := [.array [.int 1, .int 2, .int 3]] }
      { typ := 42, data := .slice (some { arr := { loc := 0 }, off := 1, len := 2, cap := 2 }) }
      { arr := { loc := 0 }, off := 1, len := 2, cap := 2 } 1
      (.array [.int 1, .int 2, .int 3]) (.int 3) (.IntV 9) rfl rfl (by decide) rfl rfl rfl).2⟩

/-- The array part of C22 on `a = ValueOf([2]int{1, 2})`: `a.SetIndex(0, 5)`
leaves the memory as it is and returns an error, or passes on a fault of the
conversion. -/
theorem goArray_SetIndex_detached_int_array :
    (goArray.SetIndex demoHost {} { typ := 43, data := .array [.int 1, .int 2] } 0
      (.IntV 5)).2 = {} ∧
    ((∃ err, (goArray.SetIndex demoHost {} { typ := 43, data := .array [.int 1, .int 2] } 0
        (.IntV 5)).1 = .error err) ∨
      ∃ m, convert demoHost (.IntV 5) (demoHost.info 43).elem = .fault m ∧
        (goArray.SetIndex demoHost {} { typ := 43, data := .array [.int 1, .int 2] } 0
          (.IntV 5)).1 = .fault m) :=
  goArray_SetIndex_detached demoHost {} { typ := 43, data := .array [.int 1, .int 2] } 0
    (.int 1) (.IntV 5) rfl rfl (by decide) rfl

end Stargo
